import Mathlib

/-!
# Scout Bookings — verification of the availability / calendar-sync core

Shallow embedding of the availability engine, the conflict checks, the
bidirectional Google-Calendar reconciliation passes, the booking CRUD
operations and the OAuth token lifecycle of the scout-hut booking platform.

Modelling conventions, used uniformly below:

* Timestamps are epoch milliseconds (`Int`).  The JavaScript code compares
  `Date` objects and ISO strings; both orders coincide with the numeric order
  on epoch millis.  The model fixes one civil timezone identified with UTC,
  so `new Date(dateStr T timeStr)` becomes `midnight-of-day + offset` and
  `getDay()` becomes arithmetic on epoch days (epoch day 0 = Thursday).
* Database reads/writes are explicit list-valued state; a `select ... eq/in/
  lt/gt` query is the corresponding `List.filter`.
* Fallible external calls (Google API, token endpoint) are driven by explicit
  outcome parameters ("oracles"), so a theorem quantifying over the oracle
  covers every pattern of external success/failure.
* JavaScript `Map` objects keyed by a database column that carries a UNIQUE
  constraint (`synced_events_hut_google_unique`, and the per-direction
  uniqueness of `booking_id`) are modelled by `List.find?` over the fetched
  rows; the corresponding `Nodup` facts appear as theorem hypotheses.
-/

namespace ScoutBookings

/-! ## Time arithmetic (model of the JavaScript `Date` operations used) -/

/-- Milliseconds in one civil day. -/
def msPerDay : Int := 86400000

/-- Midnight (00:00:00.000) of the civil day containing `t`. -/
def midnightOf (t : Int) : Int := msPerDay * (t.fdiv msPerDay)

/-- Millisecond offset of `t` within its civil day;
model of `toTimeString().slice(0, 5)` / `toLocaleTimeString`. -/
def timeOfDayOf (t : Int) : Int := t - midnightOf t

/-- Index of the weekday of `t` (0 = Sunday … 6 = Saturday), the model of
`Date.prototype.getDay()`: epoch day 0 (1970-01-01) was a Thursday. -/
def dayIndexOf (t : Int) : Int := (t.fdiv msPerDay + 4) % 7

/-- `['sunday', 'monday', 'tuesday', 'wednesday', 'thursday', 'friday',
'saturday']` from the session checks. -/
def dayNames : List String :=
  ["sunday", "monday", "tuesday", "wednesday", "thursday", "friday", "saturday"]

/-- The `dayNames[startDate.getDay()]` lookup. -/
def dayNameOf (t : Int) : String := dayNames.getD (dayIndexOf t).toNat ""

/-! ## Data model -/

/-- A row of the `bookings` table (the fields the availability/sync logic
reads).  `status` ranges over `'confirmed' | 'pending' | 'cancelled'`. -/
structure Booking where
  id : Nat
  hutId : String
  eventName : String
  contactName : Option String
  startTime : Int
  endTime : Int
  status : String
  deriving Repr, DecidableEq

/-- A row of the `synced_events` mirror table (migration
`006_google_calendar_sync.sql`).  `eventType` is the sync direction:
`'google_to_scout'` (imported block) or `'scout_to_google'` (exported
reservation); `googleEventId` is the opaque external event id. -/
structure SyncedEvent where
  id : Nat
  hutId : String
  googleEventId : Nat
  bookingId : Option Nat
  eventType : String
  startTime : Int
  endTime : Int
  title : String
  deriving Repr, DecidableEq

/-- One weekly-session rule from `hut.weekly_sessions`:
`{enabled, day, start_time, end_time}` with the times of day modelled as
millisecond offsets from midnight. -/
structure SessionConfig where
  enabled : Bool
  day : String
  startTime : Int
  endTime : Int
  deriving Repr, DecidableEq

/-- The hut fields the conflict checks read: `weekly_sessions` as its
`Object.entries` list (group key × config), and the booking buffer minutes
used by `getUnavailableTimesForDate`. -/
structure Hut where
  weeklySessions : List (String × SessionConfig)
  bookingBufferBefore : Int
  bookingBufferAfter : Int
  deriving Repr, DecidableEq

/-- `groupDisplayNames[group]` (`squirrels/beavers/cubs/scouts`); an unknown
key yields JavaScript `undefined`, rendered `"undefined"` in the template
string. -/
def groupDisplayName (g : String) : String :=
  if g = "squirrels" then "Squirrels"
  else if g = "beavers" then "Beavers"
  else if g = "cubs" then "Cubs"
  else if g = "scouts" then "Scouts"
  else "undefined"

/-! ## Interval overlap primitive -/

/-- `timeRangesOverlap(start1, end1, start2, end2)` from
`src/js/public-booking.js`: `start1 < end2 && end1 > start2`.  The JavaScript
`<` runs on `"HH:MM"` strings or `Date`s; both are linear orders, so the
primitive is embedded over an arbitrary linear order. -/
def timeRangesOverlap {α : Type} [LinearOrder α] (start1 end1 start2 end2 : α) : Bool :=
  decide (start1 < end2) && decide (end1 > start2)

/-! ## Availability engine — `checkAvailability` (bookings module) -/

/-- One entry of the `conflicts` array.  The JavaScript objects carry varying
field sets; absent fields are `none`.  Formatted display times are modelled by
the underlying timestamps. -/
structure Conflict where
  type : String
  title : String
  startT : Option Int
  endT : Option Int
  contact : Option String
  internalTitle : Option String
  deriving Repr, DecidableEq

/-- Result shape `{available, conflicts}`. -/
structure AvailabilityResult where
  available : Bool
  conflicts : List Conflict
  deriving Repr, DecidableEq

/-- JavaScript `String.prototype.trim()`: strip leading and trailing
whitespace (structurally computable model of `String.trim`). -/
def jsTrim (s : String) : String :=
  ⟨((s.data.dropWhile Char.isWhitespace).reverse.dropWhile Char.isWhitespace).reverse⟩

/-- `booking.contact_name || null`. -/
def contactOrNull (c : Option String) : Option String :=
  match c with
  | some s => if s = "" then none else some s
  | none => none

/-- `bookingData.contact_name?.trim() || null`. -/
def trimOrNull (c : Option String) : Option String :=
  match c with
  | some s => if jsTrim s = "" then none else some (jsTrim s)
  | none => none

/-- `checkAvailability(hutId, requestedStart, requestedEnd, options)` from the
bookings module.  Sources checked, in order: (1) `bookings` rows of the hut
with status in `{confirmed, pending}` whose interval overlaps the request
(`.lt('start_time', end)`, `.gt('end_time', start)`), minus
`options.excludeBookingId`; (2) `synced_events` rows with
`event_type = 'google_to_scout'` overlapping the request, with the title
redacted to `'Owner has personal commitment'` and the real title kept in
`_internalTitle`; (3) weekly sessions of `options.hut` whose day matches the
request's start date.  `available = (conflicts.length === 0)`.
The `isNaN` date-format guard has no counterpart for `Int` timestamps. -/
def checkAvailability (bookingsTable : List Booking) (syncedTable : List SyncedEvent)
    (hutId : String) (startDate endDate : Int)
    (excludeBookingId : Option Nat) (hut : Option Hut) : AvailabilityResult :=
  if hutId = "" then
    { available := false
      conflicts := [{ type := "error", title := "Invalid request",
                      startT := none, endT := none, contact := none, internalTitle := none }] }
  else
    let bookingConflicts :=
      (bookingsTable.filter (fun b =>
        b.hutId == hutId &&
        (b.status == "confirmed" || b.status == "pending") &&
        decide (b.startTime < endDate) && decide (b.endTime > startDate) &&
        (match excludeBookingId with
         | some ex => b.id != ex
         | none => true))).map (fun b =>
          { type := "booking", title := b.eventName,
            startT := some b.startTime, endT := some b.endTime,
            contact := contactOrNull b.contactName, internalTitle := none })
    let googleConflicts :=
      (syncedTable.filter (fun e =>
        e.hutId == hutId && e.eventType == "google_to_scout" &&
        decide (e.startTime < endDate) && decide (e.endTime > startDate))).map (fun e =>
          { type := "google-event", title := "Owner has personal commitment",
            startT := some e.startTime, endT := some e.endTime,
            contact := none, internalTitle := some e.title })
    let sessionConflicts :=
      match hut with
      | none => []
      | some h =>
        let dayName := dayNameOf startDate
        let dayMidnight := midnightOf startDate
        (h.weeklySessions.filter (fun gc => gc.2.enabled && gc.2.day == dayName)).filterMap
          (fun gc =>
            let sessionStart := dayMidnight + gc.2.startTime
            let sessionEnd := dayMidnight + gc.2.endTime
            if startDate < sessionEnd ∧ endDate > sessionStart then
              some { type := "session", title := groupDisplayName gc.1 ++ " session",
                     startT := some sessionStart, endT := some sessionEnd,
                     contact := none, internalTitle := none }
            else none)
    let conflicts := bookingConflicts ++ googleConflicts ++ sessionConflicts
    { available := conflicts.isEmpty, conflicts := conflicts }

/-! ## Availability engine — `checkAvailabilityWithSync` (calendar module) -/

/-- `checkAvailabilityWithSync(hutId, startTime, endTime, excludeBookingId)`
from the calendar-sync module.  Differences from `checkAvailability` embedded
exactly as written: the bookings query filters `status = 'confirmed'` only
(pending does not block here), the overlap test runs in code after fetching
all of the hut's confirmed bookings, the imported-event conflict carries
`event.title || 'Google Calendar Event'` as its visible title, sessions come
from the hut row fetched inside the function, their titles end in
`'Session'`, and validation failures return `{available: true, conflicts:
[]}`. -/
def checkAvailabilityWithSync (bookingsTable : List Booking) (syncedTable : List SyncedEvent)
    (hutRow : Option Hut) (hutId : String) (startTime endTime : Int)
    (excludeBookingId : Option Nat) : AvailabilityResult :=
  if hutId = "" then { available := true, conflicts := [] }
  else
    let bookingConflicts :=
      ((bookingsTable.filter (fun b =>
          b.hutId == hutId && b.status == "confirmed" &&
          (match excludeBookingId with
           | some ex => b.id != ex
           | none => true))).filter (fun b =>
            decide (startTime < b.endTime) && decide (endTime > b.startTime))).map (fun b =>
          { type := "booking", title := b.eventName,
            startT := some b.startTime, endT := some b.endTime,
            contact := none, internalTitle := none })
    let googleConflicts :=
      ((syncedTable.filter (fun e =>
          e.hutId == hutId && e.eventType == "google_to_scout")).filter (fun e =>
            decide (startTime < e.endTime) && decide (endTime > e.startTime))).map (fun e =>
          { type := "google-event",
            title := if e.title = "" then "Google Calendar Event" else e.title,
            startT := some e.startTime, endT := some e.endTime,
            contact := none, internalTitle := none })
    let sessionConflicts :=
      match hutRow with
      | none => []
      | some h =>
        let dayName := dayNameOf startTime
        let dayMidnight := midnightOf startTime
        (h.weeklySessions.filter (fun gc => gc.2.enabled && gc.2.day == dayName)).filterMap
          (fun gc =>
            let sessionStart := dayMidnight + gc.2.startTime
            let sessionEnd := dayMidnight + gc.2.endTime
            if startTime < sessionEnd ∧ endTime > sessionStart then
              some { type := "session", title := groupDisplayName gc.1 ++ " Session",
                     startT := some sessionStart, endT := some sessionEnd,
                     contact := none, internalTitle := none }
            else none)
    let conflicts := bookingConflicts ++ googleConflicts ++ sessionConflicts
    { available := conflicts.isEmpty, conflicts := conflicts }

/-! ## Date-scoped conflict checks -/

/-- One entry of the `conflicts` array of `checkBookingConflicts` (the
`{type, name, time, ...}` shape; the formatted `time` string is modelled by
the two underlying time-of-day offsets). -/
structure BookingConflict where
  type : String
  name : String
  timeStart : Int
  timeEnd : Int
  contact : Option String
  internalTitle : Option String
  deriving Repr, DecidableEq

/-- Result shape `{hasConflict, conflicts}`. -/
structure ConflictsResult where
  hasConflict : Bool
  conflicts : List BookingConflict
  deriving Repr, DecidableEq

/-- End of `new Date(date + 'T23:59:59')` relative to the date's midnight. -/
def endOfDayOffset : Int := 86399000

/-- `checkBookingConflicts(hutId, hut, date, startTime, endTime,
excludeBookingId)`.  `date` is modelled by its midnight timestamp
`dateMidnight`; `startTime`/`endTime` (`"HH:MM"`) by their millisecond
offsets.  Check 1 queries bookings with status in `{confirmed, pending}` whose
`start_time` lies inside the candidate's calendar day
(`gte dayStart`/`lte dayEnd`), then tests overlap in code; check 2 queries
`google_to_scout` synced events with non-strict window bounds
(`lte start_time propEnd` / `gte end_time propStart`) and re-tests strict
overlap in code, redacting the name to `'Owner unavailable'`; check 3 expands
the weekly sessions of the date's weekday. -/
def checkBookingConflicts (bookingsTable : List Booking) (syncedTable : List SyncedEvent)
    (hutId : String) (hut : Option Hut) (dateMidnight : Int)
    (startOffset endOffset : Int) (excludeBookingId : Option Nat) : ConflictsResult :=
  let proposedStart := dateMidnight + startOffset
  let proposedEnd := dateMidnight + endOffset
  let dayStart := dateMidnight
  let dayEnd := dateMidnight + endOfDayOffset
  let bookingConflicts :=
    ((bookingsTable.filter (fun b =>
        b.hutId == hutId &&
        (b.status == "confirmed" || b.status == "pending") &&
        decide (dayStart ≤ b.startTime) && decide (b.startTime ≤ dayEnd) &&
        (match excludeBookingId with
         | some ex => b.id != ex
         | none => true))).filter (fun b =>
          decide (proposedStart < b.endTime) && decide (proposedEnd > b.startTime))).map
      (fun b =>
        { type := "booking", name := b.eventName,
          timeStart := timeOfDayOf b.startTime, timeEnd := timeOfDayOf b.endTime,
          contact := contactOrNull b.contactName, internalTitle := none })
  let googleConflicts :=
    ((syncedTable.filter (fun e =>
        e.hutId == hutId && e.eventType == "google_to_scout" &&
        decide (e.startTime ≤ proposedEnd) && decide (proposedStart ≤ e.endTime))).filter
      (fun e =>
        decide (proposedStart < e.endTime) && decide (proposedEnd > e.startTime))).map
      (fun e =>
        { type := "google-event", name := "Owner unavailable",
          timeStart := timeOfDayOf e.startTime, timeEnd := timeOfDayOf e.endTime,
          contact := none, internalTitle := some e.title })
  let sessionConflicts :=
    match hut with
    | none => []
    | some h =>
      let dayName := dayNameOf dateMidnight
      (h.weeklySessions.filter (fun gc => gc.2.enabled && gc.2.day == dayName)).filterMap
        (fun gc =>
          let sessionStart := dateMidnight + gc.2.startTime
          let sessionEnd := dateMidnight + gc.2.endTime
          if proposedStart < sessionEnd ∧ proposedEnd > sessionStart then
            some { type := "session", name := groupDisplayName gc.1,
                   timeStart := gc.2.startTime, timeEnd := gc.2.endTime,
                   contact := none, internalTitle := none }
          else none)
  let conflicts := bookingConflicts ++ googleConflicts ++ sessionConflicts
  { hasConflict := !conflicts.isEmpty, conflicts := conflicts }

/-- An `{start_time, end_time}` slot returned by `getUnavailableTimesForDate`
(`"HH:MM"` strings modelled as time-of-day offsets). -/
structure UnavailableSlot where
  startTimeOfDay : Int
  endTimeOfDay : Int
  deriving Repr, DecidableEq

/-- `getUnavailableTimesForDate(hutId, date)` from
`src/js/public-booking.js`, with the module state `currentHut` made explicit.
Fetches the hut's confirmed and pending bookings whose `start_time` lies
between `date T00:00:00` and `date T23:59:59`, widens each by the hut's
booking buffers, adds the matching weekly sessions, and sorts by start time
(`localeCompare` on `"HH:MM"` agrees with the numeric order of the
offsets). -/
def getUnavailableTimesForDate (bookingsTable : List Booking) (currentHut : Option Hut)
    (hutId : String) (dateMidnight : Int) : List UnavailableSlot :=
  let startOfDay := dateMidnight
  let endOfDay := dateMidnight + endOfDayOffset
  let bookings := bookingsTable.filter (fun b =>
    b.hutId == hutId &&
    (b.status == "confirmed" || b.status == "pending") &&
    decide (startOfDay ≤ b.startTime) && decide (b.startTime ≤ endOfDay))
  let bufferBefore := (currentHut.map Hut.bookingBufferBefore).getD 0
  let bufferAfter := (currentHut.map Hut.bookingBufferAfter).getD 0
  let unavailable := bookings.map (fun b =>
    { startTimeOfDay := timeOfDayOf (b.startTime - bufferBefore * 60000)
      endTimeOfDay := timeOfDayOf (b.endTime + bufferAfter * 60000) : UnavailableSlot })
  let dayName := dayNameOf startOfDay
  let sessionSlots :=
    match currentHut with
    | none => []
    | some h =>
      (h.weeklySessions.filter (fun gc => gc.2.enabled && gc.2.day == dayName)).map
        (fun gc => { startTimeOfDay := gc.2.startTime, endTimeOfDay := gc.2.endTime :
                     UnavailableSlot })
  (unavailable ++ sessionSlots).mergeSort
    (fun a b => decide (a.startTimeOfDay ≤ b.startTimeOfDay))

/-! ## Reconciliation engine — Pass A: `syncFromGoogleCalendar` -/

/-- A timed Google Calendar event as returned by
`fetchGoogleCalendarEvents` (all-day events are filtered out there; `summary`
already carries the `|| 'Untitled Event'` default). -/
structure GoogleEvent where
  id : Nat
  summary : String
  startTime : Int
  endTime : Int
  deriving Repr, DecidableEq

/-- State threaded through an import pass: the `synced_events` table, the
next primary key the store will assign, and the pass counters
`{imported, updated, deleted}`. -/
structure ImportState where
  table : List SyncedEvent
  nextId : Nat
  imported : Nat
  updated : Nat
  deleted : Nat
  deriving Repr, DecidableEq

/-- The mirror rows an import pass works on:
`synced_events` for the hut with `event_type = 'google_to_scout'`. -/
def importSnapshot (hutId : String) (table : List SyncedEvent) : List SyncedEvent :=
  table.filter (fun r => r.hutId == hutId && r.eventType == "google_to_scout")

/-- The cached-interval/title comparison of the import pass:
`existingStart !== newStart || existingEnd !== newEnd ||
existingSynced.title !== googleEvent.summary`, negated. -/
def matchesEventData (r : SyncedEvent) (e : GoogleEvent) : Bool :=
  r.startTime == e.startTime && r.endTime == e.endTime && r.title == e.summary

/-- One iteration of the import pass's event loop.  `snapshot` is the
pre-pass fetch (`existingMap`, a JavaScript `Map` keyed by
`google_event_id`; under the `synced_events_hut_google_unique` constraint its
lookups are `List.find?` over the fetched rows).  A known event with changed
data is updated in place by primary key; an unknown event is inserted, the
insert failing silently (error code 23505) when the UNIQUE constraint on
`(hut_id, google_event_id)` rejects it. -/
def importApplyEvent (hutId : String) (snapshot : List SyncedEvent)
    (s : ImportState) (e : GoogleEvent) : ImportState :=
  match snapshot.find? (fun r => r.googleEventId == e.id) with
  | some r0 =>
    if matchesEventData r0 e then s
    else
      { s with
        table := s.table.map (fun x =>
          if x.id == r0.id then
            { x with startTime := e.startTime, endTime := e.endTime, title := e.summary }
          else x)
        updated := s.updated + 1 }
  | none =>
    if s.table.any (fun x => x.hutId == hutId && x.googleEventId == e.id) then s
    else
      { s with
        table := s.table ++ [{ id := s.nextId, hutId := hutId, googleEventId := e.id,
                               bookingId := none, eventType := "google_to_scout",
                               startTime := e.startTime, endTime := e.endTime,
                               title := e.summary }]
        nextId := s.nextId + 1
        imported := s.imported + 1 }

/-- Deletion sweep of the import pass: every pre-pass mirror row whose
external id was not seen in the fetched event list is deleted by primary
key. -/
def importDeletePhase (snapshot : List SyncedEvent) (seenIds : List Nat)
    (s : ImportState) : ImportState :=
  snapshot.foldl
    (fun acc r =>
      if seenIds.contains r.googleEventId then acc
      else { acc with table := acc.table.filter (fun x => x.id != r.id),
                      deleted := acc.deleted + 1 })
    s

/-- `syncFromGoogleCalendar(hutId, accessToken, calendarId)`: the external →
internal reconciliation pass, with the fetched event list made explicit.
Loads the hut's imported mirror rows, walks the fetched events
(insert-or-update, tracking seen external ids), then deletes every pre-pass
mirror row not seen.  The `last_sync_at` completion-timestamp write on the
hut row is outside the mirror table and not part of this state. -/
def syncFromGoogleCalendar (hutId : String) (events : List GoogleEvent)
    (table : List SyncedEvent) (nextId : Nat) : ImportState :=
  let snapshot := importSnapshot hutId table
  let seenIds := events.map GoogleEvent.id
  let s1 := events.foldl (importApplyEvent hutId snapshot)
    { table := table, nextId := nextId, imported := 0, updated := 0, deleted := 0 }
  importDeletePhase snapshot seenIds s1

/-! ## Reconciliation engine — Pass B: `syncToGoogleCalendar` -/

/-- Outcomes of the Google Calendar API write calls made by an export pass,
per target: `createOk` maps a booking id to the id of the event Google
created for it (`none`: creation failed), `updateOk`/`deleteOk` report
success of updating/deleting the given external event id
(`deleteGoogleCalendarEvent` already treats 404 as success). -/
structure CalendarApiOracle where
  createOk : Nat → Option Nat
  updateOk : Nat → Bool
  deleteOk : Nat → Bool

/-- State threaded through an export pass, with counters
`{created, updated, deleted}`. -/
structure ExportState where
  table : List SyncedEvent
  nextId : Nat
  created : Nat
  updated : Nat
  deleted : Nat
  deriving Repr, DecidableEq

/-- The mirror rows an export pass works on:
`synced_events` for the hut with `event_type = 'scout_to_google'`. -/
def exportSnapshot (hutId : String) (table : List SyncedEvent) : List SyncedEvent :=
  table.filter (fun r => r.hutId == hutId && r.eventType == "scout_to_google")

/-- The confirmed-future reservation set an export pass mirrors:
`status = 'confirmed'` and `start_time ≥ now`. -/
def confirmedFutureBookings (hutId : String) (now : Int)
    (bookingsTable : List Booking) : List Booking :=
  bookingsTable.filter (fun b =>
    b.hutId == hutId && b.status == "confirmed" && decide (now ≤ b.startTime))

/-- `'Scout Booking: ' + booking.event_name`, the exported event summary the
mirror row's `title` caches. -/
def exportSummary (b : Booking) : String := "Scout Booking: " ++ b.eventName

/-- One iteration of the export pass's booking loop.  `snapshot` is the
pre-pass fetch (`syncedByBookingId`, a `Map` keyed by `booking_id`; a
reservation maps to at most one exported mirror row, so lookups are
`List.find?`).  An already-synced booking with changed data updates the
external event first and caches the new data in the mirror row only on
success; an unsynced booking creates the external event and inserts a mirror
row only on success, the insert subject to the UNIQUE
`(hut_id, google_event_id)` constraint. -/
def exportApplyBooking (hutId : String) (oracle : CalendarApiOracle)
    (snapshot : List SyncedEvent) (s : ExportState) (b : Booking) : ExportState :=
  match snapshot.find? (fun r => r.bookingId == some b.id) with
  | some m =>
    if m.startTime == b.startTime && m.endTime == b.endTime &&
        m.title == exportSummary b then s
    else if oracle.updateOk m.googleEventId then
      { s with
        table := s.table.map (fun x =>
          if x.id == m.id then
            { x with startTime := b.startTime, endTime := b.endTime,
                     title := exportSummary b }
          else x)
        updated := s.updated + 1 }
    else s
  | none =>
    match oracle.createOk b.id with
    | some gid =>
      if s.table.any (fun x => x.hutId == hutId && x.googleEventId == gid) then s
      else
        { s with
          table := s.table ++ [{ id := s.nextId, hutId := hutId, googleEventId := gid,
                                 bookingId := some b.id, eventType := "scout_to_google",
                                 startTime := b.startTime, endTime := b.endTime,
                                 title := exportSummary b }]
          nextId := s.nextId + 1
          created := s.created + 1 }
    | none => s

/-- Cleanup sweep of the export pass: for every pre-pass mirror row whose
booking id is no longer in the confirmed-future set, delete the external
event first; only if that deletion succeeds, delete the mirror row (by
primary key).  A failed external deletion leaves the mirror row intact for
retry on the next pass. -/
def exportCleanupPhase (oracle : CalendarApiOracle) (snapshot : List SyncedEvent)
    (processedBookingIds : List Nat) (s : ExportState) : ExportState :=
  snapshot.foldl
    (fun acc m =>
      match m.bookingId with
      | none => acc
      | some bid =>
        if processedBookingIds.contains bid then acc
        else if oracle.deleteOk m.googleEventId then
          { acc with table := acc.table.filter (fun x => x.id != m.id),
                     deleted := acc.deleted + 1 }
        else acc)
    s

/-- `syncToGoogleCalendar(hutId, accessToken, calendarId)`: the internal →
external reconciliation pass, with the API outcomes made explicit.  Loads the
hut's confirmed future bookings and its exported mirror rows, walks the
bookings (create-or-update), then removes mirrored events whose booking left
the confirmed-future set. -/
def syncToGoogleCalendar (hutId : String) (now : Int) (oracle : CalendarApiOracle)
    (bookingsTable : List Booking) (table : List SyncedEvent) (nextId : Nat) : ExportState :=
  let bookings := confirmedFutureBookings hutId now bookingsTable
  let snapshot := exportSnapshot hutId table
  let processedBookingIds := bookings.map Booking.id
  let s1 := bookings.foldl (exportApplyBooking hutId oracle snapshot)
    { table := table, nextId := nextId, created := 0, updated := 0, deleted := 0 }
  exportCleanupPhase oracle snapshot processedBookingIds s1

/-! ## Sequences of sync passes -/

/-- One invocation of either reconciliation pass, with the external inputs it
observed. -/
inductive PassInvocation where
  | importPass (hutId : String) (events : List GoogleEvent)
  | exportPass (hutId : String) (now : Int) (oracle : CalendarApiOracle)
      (bookingsTable : List Booking)

/-- Run one pass against the mirror table (and primary-key counter). -/
def runPass (p : PassInvocation) (st : List SyncedEvent × Nat) : List SyncedEvent × Nat :=
  match p with
  | .importPass hutId events =>
    let s := syncFromGoogleCalendar hutId events st.1 st.2
    (s.table, s.nextId)
  | .exportPass hutId now oracle bookingsTable =>
    let s := syncToGoogleCalendar hutId now oracle bookingsTable st.1 st.2
    (s.table, s.nextId)

/-- Run a sequence of sync passes. -/
def runPasses (ps : List PassInvocation) (st : List SyncedEvent × Nat) :
    List SyncedEvent × Nat :=
  ps.foldl (fun st p => runPass p st) st

/-! ## Token lifecycle manager -/

/-- `TOKEN_EXPIRY_SECONDS`. -/
def tokenExpirySeconds : Int := 3600

/-- A row of `calendar_tokens` (unique per user). -/
structure CalendarToken where
  accessToken : String
  refreshToken : String
  tokenExpiresAt : Int
  deriving Repr, DecidableEq

/-- What the Google token endpoint answered a refresh request:
a token payload, an HTTP error status, or a thrown network error. -/
inductive RefreshOutcome where
  | success (accessToken : String) (refreshToken : Option String) (expiresIn : Option Int)
  | httpError (status : Nat)
  | networkError
  deriving Repr, DecidableEq

/-- JavaScript `a || b` on an optional string (empty string is falsy). -/
def orDefaultStr (a : Option String) (b : String) : String :=
  match a with
  | some s => if s = "" then b else s
  | none => b

/-- JavaScript `a || b` on an optional number (`0` is falsy). -/
def orDefaultInt (a : Option Int) (b : Int) : Int :=
  match a with
  | some n => if n = 0 then b else n
  | none => b

/-- `refreshCalendarToken(userId)`, over the user's stored credential row and
the token-endpoint outcome.  Returns the new access token (or `null`) and the
credential row afterwards.  A provider-reported 400/401 deletes the stored
row; any other failure (other statuses, or a thrown network error) leaves it
untouched.  On success the row is updated with the new access token, the
possibly-new refresh token (`tokenData.refresh_token || refreshToken`) and
`now + (tokenData.expires_in || TOKEN_EXPIRY_SECONDS) * 1000`. -/
def refreshCalendarToken (userId : String) (stored : Option CalendarToken)
    (now : Int) (outcome : RefreshOutcome) : Option String × Option CalendarToken :=
  if userId = "" then (none, stored)
  else
    match stored with
    | none => (none, none)
    | some cred =>
      match outcome with
      | .success tok newRefresh expiresIn =>
        let newRow : CalendarToken :=
          { accessToken := tok
            refreshToken := orDefaultStr newRefresh cred.refreshToken
            tokenExpiresAt := now + orDefaultInt expiresIn tokenExpirySeconds * 1000 }
        (some tok, some newRow)
      | .httpError status =>
        if status == 400 || status == 401 then (none, none) else (none, some cred)
      | .networkError => (none, some cred)

/-- Result of `getCalendarTokens`: the token handed back, the credential row
afterwards, and whether the token endpoint was called. -/
structure TokenResult where
  token : Option String
  stored : Option CalendarToken
  refreshAttempted : Bool
  deriving Repr, DecidableEq

/-- `getCalendarTokens(userId)`: returns the cached access token unless
`tokenExpiresAt - 5min < now`, in which case it delegates to
`refreshCalendarToken`.  A missing row returns `null` without refreshing. -/
def getCalendarTokens (userId : String) (stored : Option CalendarToken)
    (now : Int) (outcome : RefreshOutcome) : TokenResult :=
  if userId = "" then { token := none, stored := stored, refreshAttempted := false }
  else
    match stored with
    | none => { token := none, stored := none, refreshAttempted := false }
    | some cred =>
      let bufferMs : Int := 5 * 60 * 1000
      if cred.tokenExpiresAt - bufferMs < now then
        let r := refreshCalendarToken userId (some cred) now outcome
        { token := r.1, stored := r.2, refreshAttempted := true }
      else
        { token := some cred.accessToken, stored := some cred, refreshAttempted := false }

/-! ## Booking CRUD operations and their non-blocking sync step -/

/-- The `scout_huts` sync columns the booking flow reads
(`google_calendar_id = ""` models an unset column, which is falsy). -/
structure HutSyncSettings where
  syncEnabled : Bool
  syncDirection : String
  googleCalendarId : String
  ownerId : String
  deriving Repr, DecidableEq

/-- `hutData.sync_enabled && ['both','to_google'].includes(sync_direction) &&
hutData.google_calendar_id`. -/
def shouldSyncToGoogle (hd : HutSyncSettings) : Bool :=
  hd.syncEnabled && (hd.syncDirection == "both" || hd.syncDirection == "to_google") &&
    hd.googleCalendarId != ""

/-- Everything the sync step of `createBooking` observes from the outside:
the hut-settings fetch (`none` = query error), the owner's access token, the
Google event creation result, and whether the local `synced_events` insert
succeeded. -/
structure CreateSyncEnv where
  hutLookup : Option HutSyncSettings
  accessToken : Option String
  createResult : Option Nat
  recordSyncOk : Bool

/-- Result shape `{data, error, syncStatus}` of the booking CRUD operations
(`syncStatus` is absent on the early error returns). -/
structure BookingOpResult where
  data : Option Booking
  error : Option String
  syncStatus : Option String
  deriving Repr, DecidableEq

/-- `createBooking(bookingData)`: validates, inserts the booking row with
status `'confirmed'` (`insertOk` is the insert outcome, `newId` the assigned
primary key), then attempts the non-blocking Google Calendar sync whose every
outcome lands in `syncStatus` only. -/
def createBooking (hutId eventName : String) (contactName : Option String)
    (startTime endTime : Int) (sessionValid : Bool) (insertOk : Bool) (newId : Nat)
    (env : CreateSyncEnv) : BookingOpResult :=
  if hutId = "" then { data := none, error := some "Hut ID is required", syncStatus := none }
  else if jsTrim eventName = "" then
    { data := none, error := some "Event name is required", syncStatus := none }
  else if endTime ≤ startTime then
    { data := none, error := some "End time must be after start time", syncStatus := none }
  else if !sessionValid then
    { data := none, error := some "Your session has expired. Please refresh the page and try again.",
      syncStatus := none }
  else if !insertOk then
    { data := none, error := some "Error creating booking", syncStatus := none }
  else
    let row : Booking :=
      { id := newId, hutId := hutId, eventName := jsTrim eventName,
        contactName := trimOrNull contactName,
        startTime := startTime, endTime := endTime, status := "confirmed" }
    let syncStatus :=
      match env.hutLookup with
      | none => "error_fetching_settings"
      | some hd =>
        if shouldSyncToGoogle hd then
          match env.accessToken with
          | none => "no_tokens"
          | some _ =>
            match env.createResult with
            | some _ => if env.recordSyncOk then "synced" else "synced_not_recorded"
            | none => "sync_failed"
        else "sync_disabled"
    { data := some row, error := none, syncStatus := some syncStatus }

/-- What the `synced_events` lookup (`.single()` by booking id and
`event_type = 'scout_to_google'`) answered: a row (whose `google_event_id`
may be null), no row (PGRST116), or another query error. -/
inductive SyncRecordLookup where
  | found (recordId : Nat) (googleEventId : Option Nat) (hutId : Option String)
  | notFound
  | queryError
  deriving Repr, DecidableEq

/-- The `scout_huts` columns the delete/cancel sync step reads. -/
structure HutCalendarSettings where
  googleCalendarId : String
  ownerId : String
  deriving Repr, DecidableEq

/-- Everything the sync step of `deleteBooking`/`cancelBooking` observes. -/
structure DeleteSyncEnv where
  syncLookup : SyncRecordLookup
  hutLookup : Option HutCalendarSettings
  accessToken : Option String
  deleteEventOk : Bool
  deleteRecordOk : Bool

/-- Result shape `{success, error, syncStatus}` of `deleteBooking`. -/
structure DeleteOpResult where
  success : Bool
  error : Option String
  syncStatus : Option String
  deriving Repr, DecidableEq

/-- JavaScript `a || b` for optional strings where both sides are optional
(`syncRecord.hut_id || booking?.hut_id`). -/
def orElseStr (a b : Option String) : Option String :=
  match a with
  | some s => if s = "" then b else some s
  | none => b

/-- `deleteBooking(bookingId)`: fetches the booking's hut id (failure is
tolerated), deletes the booking row (`deleteOk`), then attempts the
non-blocking Google Calendar cleanup whose every outcome lands in
`syncStatus` only. -/
def deleteBooking (bookingId : Option Nat) (sessionValid : Bool)
    (fetchedHutId : Option String) (deleteOk : Bool) (env : DeleteSyncEnv) : DeleteOpResult :=
  match bookingId with
  | none => { success := false, error := some "Booking ID is required", syncStatus := none }
  | some _ =>
    if !sessionValid then
      { success := false,
        error := some "Your session has expired. Please refresh the page and try again.",
        syncStatus := none }
    else if !deleteOk then
      { success := false, error := some "Error deleting booking", syncStatus := none }
    else
      let syncStatus :=
        match env.syncLookup with
        | .queryError => "error_checking_sync"
        | .found _ (some _) recHutId =>
          match orElseStr recHutId fetchedHutId with
          | none => "no_hut_id"
          | some _ =>
            match env.hutLookup with
            | none => "error_fetching_settings"
            | some hd =>
              if hd.googleCalendarId != "" then
                match env.accessToken with
                | none => "no_tokens"
                | some _ =>
                  if env.deleteEventOk then
                    if env.deleteRecordOk then "synced" else "synced_not_cleaned"
                  else "sync_failed"
              else "no_calendar"
        | .found _ none _ => "not_synced"
        | .notFound => "not_synced"
      { success := true, error := none, syncStatus := some syncStatus }

/-- Outcome of `updateGoogleCalendarEvent` as `updateBooking` discriminates
it: success, the `'Event not found'` error, or any other failure. -/
inductive UpdateEventOutcome where
  | success
  | notFound
  | failed
  deriving Repr, DecidableEq

/-- Everything the sync step of `updateBooking` observes. -/
structure UpdateSyncEnv where
  hutLookup : Option HutSyncSettings
  accessToken : Option String
  syncLookup : SyncRecordLookup
  updateResult : UpdateEventOutcome
  updateRecordOk : Bool
  createResult : Option Nat
  recordSyncOk : Bool

/-- `updateBooking(bookingId, updates)`: applies the update
(`updatedRow` is the `.update().select().single()` outcome, `none` = error),
then attempts the non-blocking sync — updating the already-exported event
(CASE A) or exporting it fresh (CASE B) — whose every outcome lands in
`syncStatus` only. -/
def updateBooking (bookingId : Option Nat) (sessionValid : Bool)
    (updatedRow : Option Booking) (env : UpdateSyncEnv) : BookingOpResult :=
  match bookingId with
  | none => { data := none, error := some "Booking ID is required", syncStatus := none }
  | some _ =>
    if !sessionValid then
      { data := none,
        error := some "Your session has expired. Please refresh the page and try again.",
        syncStatus := none }
    else
      match updatedRow with
      | none => { data := none, error := some "Error updating booking", syncStatus := none }
      | some row =>
        let syncStatus :=
          match env.hutLookup with
          | none => "error_fetching_settings"
          | some hd =>
            if shouldSyncToGoogle hd then
              match env.accessToken with
              | none => "no_tokens"
              | some _ =>
                match env.syncLookup with
                | .found _ (some _) _ =>
                  match env.updateResult with
                  | .success => if env.updateRecordOk then "synced" else "synced_not_recorded"
                  | .notFound => "event_deleted_in_google"
                  | .failed => "sync_failed"
                | _ =>
                  match env.createResult with
                  | some _ => if env.recordSyncOk then "synced" else "synced_not_recorded"
                  | none => "sync_failed"
            else "sync_disabled"
        { data := some row, error := none, syncStatus := some syncStatus }

/-- `cancelBooking(bookingId)`: sets the booking's status to `'cancelled'`
(`updatedRow` is the `.update().select().single()` outcome), then attempts
the non-blocking Google Calendar deletion whose every outcome lands in
`syncStatus` only (a hut without a configured calendar leaves it at
`'not_attempted'`). -/
def cancelBooking (bookingId : Option Nat) (updatedRow : Option Booking)
    (env : DeleteSyncEnv) : BookingOpResult :=
  match bookingId with
  | none => { data := none, error := some "Booking ID is required", syncStatus := none }
  | some _ =>
    match updatedRow with
    | none => { data := none, error := some "Error cancelling booking", syncStatus := none }
    | some row =>
      let syncStatus :=
        match env.syncLookup with
        | .queryError => "error_checking_sync"
        | .found _ (some _) _ =>
          match env.hutLookup with
          | none => "error_fetching_settings"
          | some hd =>
            if hd.googleCalendarId != "" then
              match env.accessToken with
              | none => "no_tokens"
              | some _ =>
                if env.deleteEventOk then
                  if env.deleteRecordOk then "synced" else "synced_not_cleaned"
                else "sync_failed"
            else "not_attempted"
        | .found _ none _ => "not_synced"
        | .notFound => "not_synced"
      { data := some row, error := none, syncStatus := some syncStatus }

/-! ## Derived notions used by the invariant proofs -/

/-- The `(hut_id, google_event_id)` pairs of a mirror table — the columns of
the UNIQUE constraint `synced_events_hut_google_unique`. -/
def pairKeys (table : List SyncedEvent) : List (String × Nat) :=
  table.map (fun r => (r.hutId, r.googleEventId))

/-- After an import pass has processed event `e`, the mirror table either
holds an imported row for `e` caching exactly `e`'s data, or the UNIQUE
constraint blocked the import because a row of another direction already
carries `e`'s external id for this hut. -/
def DoneEvent (hutId : String) (table : List SyncedEvent) (e : GoogleEvent) : Prop :=
  (∃ r ∈ table, r.hutId = hutId ∧ r.eventType = "google_to_scout" ∧
    r.googleEventId = e.id ∧ matchesEventData r e = true) ∨
  (∃ r ∈ table, r.hutId = hutId ∧ r.googleEventId = e.id ∧ r.eventType ≠ "google_to_scout")

/-- Invariant carried through the event loop of an import pass over the
original table `T0`.  `doneEvents` are the already-processed events,
`remIds` the external ids of the still-unprocessed ones. -/
structure ImportInv (hutId : String) (T0 : List SyncedEvent)
    (doneEvents : List GoogleEvent) (remIds : List Nat) (s : ImportState) : Prop where
  idsNodup : (s.table.map SyncedEvent.id).Nodup
  pairsNodup : (pairKeys s.table).Nodup
  fresh : ∀ r ∈ s.table, r.id < s.nextId
  keyFields : ∀ x ∈ s.table, ∀ y ∈ T0, x.id = y.id →
    x.hutId = y.hutId ∧ x.googleEventId = y.googleEventId ∧ x.eventType = y.eventType
  kept : ∀ y ∈ T0, ∃ x ∈ s.table, x.id = y.id
  origin : ∀ x ∈ s.table, (∃ y ∈ T0, x.id = y.id) ∨
    (x.hutId = hutId ∧ x.eventType = "google_to_scout" ∧
      x.googleEventId ∈ doneEvents.map GoogleEvent.id)
  freshData : ∀ x ∈ s.table, ∀ y ∈ T0, x.id = y.id → x.googleEventId ∈ remIds →
    x.startTime = y.startTime ∧ x.endTime = y.endTime ∧ x.title = y.title
  done : ∀ e ∈ doneEvents, DoneEvent hutId s.table e

/-! ## C2 — the interval overlap primitive -/

/-- **C2**: `timeRangesOverlap` returns `true` iff `aStart < bEnd ∧ aEnd >
bStart`; it is symmetric in its two intervals, touching endpoints
(`aEnd = bStart` or `bEnd = aStart`) yield `false`, and identical
(non-degenerate, `aStart < aEnd`) intervals yield `true`. -/
theorem timeRangesOverlap_spec (aS aE bS bE : Int) :
    (timeRangesOverlap aS aE bS bE = true ↔ (aS < bE ∧ aE > bS))
    ∧ timeRangesOverlap aS aE bS bE = timeRangesOverlap bS bE aS aE
    ∧ (aE = bS → timeRangesOverlap aS aE bS bE = false)
    ∧ (bE = aS → timeRangesOverlap aS aE bS bE = false)
    ∧ (aS < aE → timeRangesOverlap aS aE aS aE = true) := by
  refine ⟨?_, ?_, ?_, ?_, ?_⟩
  · simp [timeRangesOverlap]
  · simp [timeRangesOverlap, gt_iff_lt, Bool.and_comm]
  · intro h; simp [timeRangesOverlap, h]
  · intro h; simp [timeRangesOverlap, h]
  · intro h; simp [timeRangesOverlap, h]

/-- Witness for `timeRangesOverlap_spec` at concrete inputs: the interval
`[0,60)` does not overlap the touching `[60,120)`, and `[0,60)` overlaps
itself. -/
theorem timeRangesOverlap_spec_witness :
    timeRangesOverlap (0 : Int) 60 60 120 = false ∧ timeRangesOverlap (0 : Int) 60 0 60 = true :=
  ⟨(timeRangesOverlap_spec 0 60 60 120).2.2.1 rfl,
   (timeRangesOverlap_spec 0 60 0 60).2.2.2.2 (by norm_num)⟩

/-! ## Structural helpers for the availability engine -/

/-- In every branch, `checkAvailability` reports availability as emptiness of
the conflict list it returns. -/
theorem checkAvailability_available_eq_isEmpty (bt : List Booking) (st : List SyncedEvent)
    (h : String) (s e : Int) (ex : Option Nat) (hut : Option Hut) :
    (checkAvailability bt st h s e ex hut).available
      = (checkAvailability bt st h s e ex hut).conflicts.isEmpty := by
  by_cases hh : h = "" <;> simp [checkAvailability, hh]

/-- A stored reservation of the hut with a blocking status that overlaps the
candidate and is not the excluded one appears in the conflict list of
`checkAvailability`. -/
theorem checkAvailability_booking_conflict_mem (bt : List Booking) (st : List SyncedEvent)
    (h : String) (s e : Int) (ex : Option Nat) (hut : Option Hut) (b : Booking)
    (hh : h ≠ "") (hmem : b ∈ bt) (hbh : b.hutId = h)
    (hbs : b.status = "confirmed" ∨ b.status = "pending")
    (hstart : b.startTime < e) (hend : b.endTime > s)
    (hex : ∀ x, ex = some x → b.id ≠ x) :
    ({ type := "booking", title := b.eventName, startT := some b.startTime,
       endT := some b.endTime, contact := contactOrNull b.contactName,
       internalTitle := none } : Conflict) ∈ (checkAvailability bt st h s e ex hut).conflicts := by
  simp only [checkAvailability, if_neg hh]
  refine List.mem_append.mpr (Or.inl (List.mem_append.mpr (Or.inl ?_)))
  refine List.mem_map.mpr ⟨b, List.mem_filter.mpr ⟨hmem, ?_⟩, rfl⟩
  cases ex with
  | none => simp [hbh, hbs, hstart, hend]
  | some x => simp [hbh, hbs, hstart, hend, hex x rfl]

/-! ## C4 — availability is emptiness of the aggregated conflict list -/

/-- **C4**: `checkAvailability` returns `available = true` exactly when its
aggregated conflict list (reservations, imported external blocks, recurring
sessions) is empty, and prepending any single overlapping confirmed
reservation to the store flips the result to `available = false`. -/
theorem checkAvailability_available_iff_no_conflicts :
    (∀ bookingsTable syncedTable hutId startDate endDate excludeBookingId hut,
      (checkAvailability bookingsTable syncedTable hutId startDate endDate
        excludeBookingId hut).available = true
      ↔ (checkAvailability bookingsTable syncedTable hutId startDate endDate
          excludeBookingId hut).conflicts = [])
    ∧ (∀ bookingsTable syncedTable hutId startDate endDate excludeBookingId hut
        (b : Booking),
      hutId ≠ "" → b.hutId = hutId → b.status = "confirmed" →
      b.startTime < endDate → b.endTime > startDate →
      (∀ x, excludeBookingId = some x → b.id ≠ x) →
      (checkAvailability (b :: bookingsTable) syncedTable hutId startDate endDate
        excludeBookingId hut).available = false) := by
  constructor
  · intro bt st h s e ex hut
    rw [checkAvailability_available_eq_isEmpty, List.isEmpty_iff]
  · intro bt st h s e ex hut b hh hbh hbs hstart hend hex
    have hmem := checkAvailability_booking_conflict_mem (b :: bt) st h s e ex hut b
      hh (List.mem_cons_self b bt) hbh (Or.inl hbs) hstart hend hex
    rw [checkAvailability_available_eq_isEmpty]
    cases hc : (checkAvailability (b :: bt) st h s e ex hut).conflicts with
    | nil => rw [hc] at hmem; cases hmem
    | cons x xs => rfl

/-- Witness for `checkAvailability_available_iff_no_conflicts`: an empty
store is available, and one overlapping confirmed reservation makes the same
query unavailable. -/
theorem checkAvailability_available_iff_no_conflicts_witness :
    (checkAvailability [] [] "h1" 100 200 none none).available = true
    ∧ (checkAvailability
        [{ id := 7, hutId := "h1", eventName := "Party", contactName := none,
           startTime := 150, endTime := 250, status := "confirmed" }]
        [] "h1" 100 200 none none).available = false :=
  ⟨(checkAvailability_available_iff_no_conflicts.1 [] [] "h1" 100 200 none none).mpr
      (by decide),
   checkAvailability_available_iff_no_conflicts.2 [] [] "h1" 100 200 none none
      { id := 7, hutId := "h1", eventName := "Party", contactName := none,
        startTime := 150, endTime := 250, status := "confirmed" }
      (by decide) rfl rfl (by decide) (by decide) (fun x hx => by cases hx)⟩

/-! ## C1 — external-event title redaction -/

/-- **C1** (counterexample): the claim that no field of the returned conflict
output carries the raw external title fails at a concrete input —
`checkAvailability` redacts the `title` field but ships the raw title to
every caller in the conflict's `_internalTitle` field. -/
theorem checkAvailability_ships_raw_title_counterexample :
    ¬ (∀ c ∈ (checkAvailability []
        [{ id := 1, hutId := "h1", googleEventId := 11, bookingId := none,
           eventType := "google_to_scout", startTime := 100, endTime := 200,
           title := "Dentist appointment" }]
        "h1" 150 250 none none).conflicts,
        c.title ≠ "Dentist appointment" ∧ c.internalTitle ≠ some "Dentist appointment") := by
  decide

/-- **C1** (amended): every external-block conflict of `checkAvailability`
carries the redacted placeholder `'Owner has personal commitment'` in its
`title` field, for every caller, but the raw external title is attached in
the conflict's `_internalTitle` field; `checkAvailabilityWithSync` returns
the raw external title (or the `'Google Calendar Event'` default when it is
empty) directly in the `title` field. -/
theorem externalBlock_title_redaction :
    (∀ bt st h (s e : Int) ex hut,
      ∀ c ∈ (checkAvailability bt st h s e ex hut).conflicts,
      c.type = "google-event" →
      c.title = "Owner has personal commitment" ∧ ∃ ev ∈ st, c.internalTitle = some ev.title)
    ∧ (∀ bt st hut h (s e : Int) ex,
      ∀ c ∈ (checkAvailabilityWithSync bt st hut h s e ex).conflicts,
      c.type = "google-event" →
      ∃ ev ∈ st, c.title = (if ev.title = "" then "Google Calendar Event" else ev.title)
        ∧ c.internalTitle = none) := by
  constructor
  · intro bt st h s e ex hut c hc htype
    by_cases hh : h = ""
    · simp [checkAvailability, hh] at hc
      rw [hc] at htype
      exact absurd htype (by decide)
    · simp only [checkAvailability, if_neg hh] at hc
      rcases List.mem_append.mp hc with hc' | hc'
      · rcases List.mem_append.mp hc' with hcb | hcg
        · rcases List.mem_map.mp hcb with ⟨b, _, rfl⟩
          exact absurd htype (by simp)
        · rcases List.mem_map.mp hcg with ⟨ev, hev, rfl⟩
          exact ⟨rfl, ev, (List.mem_filter.mp hev).1, rfl⟩
      · cases hut with
        | none => cases hc'
        | some hutVal =>
          rcases List.mem_filterMap.mp hc' with ⟨gc, _, hgc⟩
          by_cases hcond : s < midnightOf s + gc.2.endTime ∧ midnightOf s + gc.2.startTime < e
          · rw [if_pos hcond] at hgc
            cases hgc
            exact absurd htype (by simp)
          · rw [if_neg hcond] at hgc
            cases hgc
  · intro bt st hut h s e ex c hc htype
    by_cases hh : h = ""
    · simp [checkAvailabilityWithSync, hh] at hc
    · simp only [checkAvailabilityWithSync, if_neg hh] at hc
      rcases List.mem_append.mp hc with hc' | hc'
      · rcases List.mem_append.mp hc' with hcb | hcg
        · rcases List.mem_map.mp hcb with ⟨b, _, rfl⟩
          exact absurd htype (by simp)
        · rcases List.mem_map.mp hcg with ⟨ev, hev, rfl⟩
          exact ⟨ev, (List.mem_filter.mp (List.mem_of_mem_filter hev)).1, rfl, rfl⟩
      · cases hut with
        | none => cases hc'
        | some hutVal =>
          rcases List.mem_filterMap.mp hc' with ⟨gc, _, hgc⟩
          by_cases hcond : s < midnightOf s + gc.2.endTime ∧ midnightOf s + gc.2.startTime < e
          · rw [if_pos hcond] at hgc
            cases hgc
            exact absurd htype (by simp)
          · rw [if_neg hcond] at hgc
            cases hgc

/-- Witness for `externalBlock_title_redaction`: the single conflict produced
from a concrete imported event is redacted as the theorem states. -/
theorem externalBlock_title_redaction_witness :
    ({ type := "google-event", title := "Owner has personal commitment",
       startT := some 100, endT := some 200, contact := none,
       internalTitle := some "Dentist appointment" } : Conflict).title
        = "Owner has personal commitment"
    ∧ ∃ ev ∈ [({ id := 1, hutId := "h1", googleEventId := 11, bookingId := none,
                 eventType := "google_to_scout", startTime := 100, endTime := 200,
                 title := "Dentist appointment" } : SyncedEvent)],
        ({ type := "google-event", title := "Owner has personal commitment",
           startT := some 100, endT := some 200, contact := none,
           internalTitle := some "Dentist appointment" } : Conflict).internalTitle
          = some ev.title :=
  externalBlock_title_redaction.1 []
    [{ id := 1, hutId := "h1", googleEventId := 11, bookingId := none,
       eventType := "google_to_scout", startTime := 100, endTime := 200,
       title := "Dentist appointment" }]
    "h1" 150 250 none none _ (by decide) rfl

/-! ## C3 — which reservation statuses block availability -/

/-- **C3** (counterexample): in `checkAvailabilityWithSync` a pending
reservation does not block — at a concrete input, a pending reservation of
the hut overlaps the candidate yet the check reports no conflict at all and
`available = true`, so the claim that the availability check queries statuses
`{confirmed, pending}` and includes every such overlapping reservation is
false for this cited check. -/
theorem checkAvailabilityWithSync_pending_counterexample :
    ¬ (∃ c ∈ (checkAvailabilityWithSync
        [{ id := 1, hutId := "h1", eventName := "Jumble sale", contactName := none,
           startTime := 100, endTime := 200, status := "pending" }]
        [] none "h1" 150 250 none).conflicts, c.type = "booking")
    ∧ (checkAvailabilityWithSync
        [{ id := 1, hutId := "h1", eventName := "Jumble sale", contactName := none,
           startTime := 100, endTime := 200, status := "pending" }]
        [] none "h1" 150 250 none).available = true := by
  constructor
  · decide
  · decide

/-- **C3** (amended): `checkAvailability` queries reservations with status in
`{confirmed, pending}` (both block), includes each one that overlaps the
candidate and excludes the reservation named by `excludeBookingId`;
`checkAvailabilityWithSync` queries only `status = 'confirmed'` (pending does
not block there), with the same overlap inclusion and exclusion.  Stated as
the exact reservation-source conflict lists of the two checks. -/
theorem availability_reservation_query_semantics :
    (∀ bt st h (s e : Int) ex hut, h ≠ "" →
      (checkAvailability bt st h s e ex hut).conflicts.filter (fun c => c.type == "booking")
        = (bt.filter (fun b => b.hutId == h &&
            (b.status == "confirmed" || b.status == "pending") &&
            decide (b.startTime < e) && decide (b.endTime > s) &&
            (match ex with | some x => b.id != x | none => true))).map
            (fun b => { type := "booking", title := b.eventName,
                        startT := some b.startTime, endT := some b.endTime,
                        contact := contactOrNull b.contactName, internalTitle := none }))
    ∧ (∀ bt st hut h (s e : Int) ex, h ≠ "" →
      (checkAvailabilityWithSync bt st hut h s e ex).conflicts.filter
          (fun c => c.type == "booking")
        = ((bt.filter (fun b => b.hutId == h && b.status == "confirmed" &&
              (match ex with | some x => b.id != x | none => true))).filter
              (fun b => decide (s < b.endTime) && decide (e > b.startTime))).map
            (fun b => { type := "booking", title := b.eventName,
                        startT := some b.startTime, endT := some b.endTime,
                        contact := none, internalTitle := none })) := by
  have extract :
      ∀ (A : List Booking) (fA : Booking → Conflict)
        (B : List SyncedEvent) (fB : SyncedEvent → Conflict) (C : List Conflict),
        (∀ b, (fA b).type = "booking") → (∀ ev, (fB ev).type ≠ "booking") →
        (∀ c ∈ C, c.type ≠ "booking") →
        (A.map fA ++ B.map fB ++ C).filter (fun c => c.type == "booking") = A.map fA := by
    intro A fA B fB C hA hB hC
    have hSelf : (A.map fA).filter (fun c => c.type == "booking") = A.map fA :=
      List.filter_eq_self.mpr (fun c hc => by
        rcases List.mem_map.mp hc with ⟨b, _, rfl⟩
        simp [hA b])
    have hBnil : (B.map fB).filter (fun c => c.type == "booking") = [] :=
      List.filter_eq_nil_iff.mpr (fun c hc => by
        rcases List.mem_map.mp hc with ⟨ev, _, rfl⟩
        simp [hB ev])
    have hCnil : C.filter (fun c => c.type == "booking") = [] :=
      List.filter_eq_nil_iff.mpr (fun c hc => by simp [hC c hc])
    rw [List.filter_append, List.filter_append, hSelf, hBnil, hCnil,
      List.append_nil, List.append_nil]
  have sessionTypes : ∀ (hutVal : Hut) (s e : Int) (suffix : String),
      ∀ c ∈ (hutVal.weeklySessions.filter
          (fun (gc : String × SessionConfig) =>
            gc.2.enabled && gc.2.day == dayNameOf s)).filterMap
        (fun (gc : String × SessionConfig) =>
          if s < midnightOf s + gc.2.endTime ∧ e > midnightOf s + gc.2.startTime then
            some ({ type := "session", title := groupDisplayName gc.1 ++ suffix,
                    startT := some (midnightOf s + gc.2.startTime),
                    endT := some (midnightOf s + gc.2.endTime),
                    contact := none, internalTitle := none } : Conflict)
          else none), c.type ≠ "booking" := by
    intro hutVal s e suffix c hc
    rcases List.mem_filterMap.mp hc with ⟨gc, _, hgc⟩
    by_cases hcond : s < midnightOf s + gc.2.endTime ∧ e > midnightOf s + gc.2.startTime
    · rw [if_pos hcond] at hgc
      cases hgc
      simp
    · rw [if_neg hcond] at hgc
      cases hgc
  constructor
  · intro bt st h s e ex hut hh
    simp only [checkAvailability, if_neg hh]
    cases hut with
    | none =>
      exact extract _ _ _ _ _ (fun b => rfl) (fun ev => by simp)
        (fun c hc => absurd hc (List.not_mem_nil c))
    | some hutVal =>
      exact extract _ _ _ _ _ (fun b => rfl) (fun ev => by simp)
        (sessionTypes hutVal s e " session")
  · intro bt st hut h s e ex hh
    simp only [checkAvailabilityWithSync, if_neg hh]
    cases hut with
    | none =>
      exact extract _ _ _ _ _ (fun b => rfl) (fun ev => by simp)
        (fun c hc => absurd hc (List.not_mem_nil c))
    | some hutVal =>
      exact extract _ _ _ _ _ (fun b => rfl) (fun ev => by simp)
        (sessionTypes hutVal s e " Session")

/-- Witness for `availability_reservation_query_semantics` at a concrete
store holding one pending reservation: `checkAvailability` reports it,
`checkAvailabilityWithSync` does not. -/
theorem availability_reservation_query_semantics_witness :
    (checkAvailability
        [{ id := 1, hutId := "h1", eventName := "Jumble sale", contactName := none,
           startTime := 100, endTime := 200, status := "pending" }]
        [] "h1" 150 250 none none).conflicts.filter (fun c => c.type == "booking")
      = [{ type := "booking", title := "Jumble sale", startT := some 100,
           endT := some 200, contact := none, internalTitle := none }]
    ∧ (checkAvailabilityWithSync
        [{ id := 1, hutId := "h1", eventName := "Jumble sale", contactName := none,
           startTime := 100, endTime := 200, status := "pending" }]
        [] none "h1" 150 250 none).conflicts.filter (fun c => c.type == "booking")
      = [] := by
  constructor
  · rw [availability_reservation_query_semantics.1
      [{ id := 1, hutId := "h1", eventName := "Jumble sale", contactName := none,
         startTime := 100, endTime := 200, status := "pending" }]
      [] "h1" 150 250 none none (by decide)]
    decide
  · rw [availability_reservation_query_semantics.2
      [{ id := 1, hutId := "h1", eventName := "Jumble sale", contactName := none,
         startTime := 100, endTime := 200, status := "pending" }]
      [] none "h1" 150 250 none (by decide)]
    decide

/-! ## C9 — token lifecycle -/

/-- **C9** (counterexample): at a stored expiry lying exactly the 5-minute
buffer in the future — not *more* than the buffer — the code returns the
cached token without attempting a refresh, so the claim's "otherwise it
attempts a refresh" fails at this concrete input. -/
theorem getCalendarTokens_boundary_counterexample :
    ¬ (((300000 : Int) > 0 + 5 * 60 * 1000) ∨
      (getCalendarTokens "u"
        (some { accessToken := "cached", refreshToken := "r", tokenExpiresAt := 300000 })
        0 RefreshOutcome.networkError).refreshAttempted = true) := by
  decide

/-- **C9** (amended): `getCalendarTokens` returns the cached access token
when the stored expiry is at least the 5-minute buffer in the future;
otherwise it attempts a refresh, and on a provider-reported 400/401 refresh
failure it deletes the stored credential and returns `null`, while on any
other failure (other HTTP status or a network error) it returns `null`
without deleting the credential; a successful refresh returns the new
token. -/
theorem getCalendarTokens_spec (u : String) (cred : CalendarToken) (now : Int)
    (outcome : RefreshOutcome) (hu : u ≠ "") :
    (now + 5 * 60 * 1000 ≤ cred.tokenExpiresAt →
      getCalendarTokens u (some cred) now outcome
        = { token := some cred.accessToken, stored := some cred, refreshAttempted := false })
    ∧ (cred.tokenExpiresAt < now + 5 * 60 * 1000 →
      (getCalendarTokens u (some cred) now outcome).refreshAttempted = true
      ∧ (∀ status, outcome = .httpError status → (status = 400 ∨ status = 401) →
          getCalendarTokens u (some cred) now outcome
            = { token := none, stored := none, refreshAttempted := true })
      ∧ (∀ status, outcome = .httpError status → status ≠ 400 → status ≠ 401 →
          getCalendarTokens u (some cred) now outcome
            = { token := none, stored := some cred, refreshAttempted := true })
      ∧ (outcome = .networkError →
          getCalendarTokens u (some cred) now outcome
            = { token := none, stored := some cred, refreshAttempted := true })
      ∧ (∀ tok newRefresh expiresIn, outcome = .success tok newRefresh expiresIn →
          (getCalendarTokens u (some cred) now outcome).token = some tok)) := by
  constructor
  · intro hfresh
    have hcond : ¬ (cred.tokenExpiresAt - 300000 < now) := by omega
    simp [getCalendarTokens, hu, hcond]
  · intro hstale
    have hcond : cred.tokenExpiresAt - 300000 < now := by omega
    refine ⟨?_, ?_, ?_, ?_, ?_⟩
    · simp [getCalendarTokens, hu, hcond]
    · rintro status rfl hst
      rcases hst with h4 | h4 <;>
        simp [getCalendarTokens, refreshCalendarToken, hu, hcond, h4]
    · rintro status rfl h400 h401
      simp [getCalendarTokens, refreshCalendarToken, hu, hcond, h400, h401]
    · rintro rfl
      simp [getCalendarTokens, refreshCalendarToken, hu, hcond]
    · rintro tok newRefresh expiresIn rfl
      simp [getCalendarTokens, refreshCalendarToken, hu, hcond]

/-- Witness for `getCalendarTokens_spec`: a concrete fresh credential is
returned from cache; a concrete stale one is purged on a 401 refresh
failure. -/
theorem getCalendarTokens_spec_witness :
    ((0 : Int) + 5 * 60 * 1000 ≤ 900000
      ∧ getCalendarTokens "u"
          (some { accessToken := "cached", refreshToken := "r", tokenExpiresAt := 900000 })
          0 RefreshOutcome.networkError
        = { token := some "cached",
            stored := some { accessToken := "cached", refreshToken := "r",
                             tokenExpiresAt := 900000 },
            refreshAttempted := false })
    ∧ ((100000 : Int) < 0 + 5 * 60 * 1000
      ∧ getCalendarTokens "u"
          (some { accessToken := "cached", refreshToken := "r", tokenExpiresAt := 100000 })
          0 (RefreshOutcome.httpError 401)
        = { token := none, stored := none, refreshAttempted := true }) :=
  ⟨⟨by norm_num,
    (getCalendarTokens_spec "u"
      { accessToken := "cached", refreshToken := "r", tokenExpiresAt := 900000 }
      0 RefreshOutcome.networkError (by decide)).1 (by norm_num)⟩,
   ⟨by norm_num,
    ((getCalendarTokens_spec "u"
      { accessToken := "cached", refreshToken := "r", tokenExpiresAt := 100000 }
      0 (RefreshOutcome.httpError 401) (by decide)).2 (by norm_num)).2.1
      401 rfl (Or.inr rfl)⟩⟩

/-! ## C10 — the date-scoped checks only see same-day reservation starts -/

/-- **C10**: the date-scoped conflict checks fetch only reservations whose
start time falls inside the candidate's calendar day, so a reservation that
starts on an earlier day — even one overlapping the candidate interval —
contributes nothing: prepending it to the store leaves both
`checkBookingConflicts` and `getUnavailableTimesForDate` unchanged. -/
theorem dayScoped_checks_ignore_prior_day_reservations
    (bt : List Booking) (st : List SyncedEvent) (h : String) (hut currentHut : Option Hut)
    (dateMidnight startOffset endOffset : Int) (ex : Option Nat) (b : Booking)
    (hearlier : b.startTime < dateMidnight)
    (hoverlap : b.startTime < dateMidnight + endOffset ∧ b.endTime > dateMidnight + startOffset) :
    checkBookingConflicts (b :: bt) st h hut dateMidnight startOffset endOffset ex
      = checkBookingConflicts bt st h hut dateMidnight startOffset endOffset ex
    ∧ getUnavailableTimesForDate (b :: bt) currentHut h dateMidnight
      = getUnavailableTimesForDate bt currentHut h dateMidnight := by
  have hd : decide (dateMidnight ≤ b.startTime) = false :=
    decide_eq_false (not_le.mpr hearlier)
  constructor
  · simp [checkBookingConflicts, List.filter_cons, hd]
  · simp [getUnavailableTimesForDate, List.filter_cons, hd]

/-- Witness for `dayScoped_checks_ignore_prior_day_reservations`: a concrete
overnight reservation starting the previous evening and running past the
candidate's window start is invisible to the date-scoped check. -/
theorem dayScoped_checks_ignore_prior_day_reservations_witness :
    ((80000000 : Int) < 86400000 ∧ (80000000 : Int) < 86400000 + 3600000
      ∧ (90000000 : Int) > 86400000 + 0)
    ∧ checkBookingConflicts
        [{ id := 1, hutId := "h", eventName := "Sleepover", contactName := none,
           startTime := 80000000, endTime := 90000000, status := "confirmed" }]
        [] "h" none 86400000 0 3600000 none
      = checkBookingConflicts [] [] "h" none 86400000 0 3600000 none :=
  ⟨⟨by norm_num, by norm_num, by norm_num⟩,
   (dayScoped_checks_ignore_prior_day_reservations [] [] "h" none none
      86400000 0 3600000 none
      { id := 1, hutId := "h", eventName := "Sleepover", contactName := none,
        startTime := 80000000, endTime := 90000000, status := "confirmed" }
      (by norm_num) ⟨by norm_num, by norm_num⟩).1⟩

/-! ## C8 — sync failures never abort a successful CRUD operation -/

/-- **C8**: once the primary database write of a reservation create, update,
delete or cancel succeeds, the operation returns success (`error = null` /
`success = true`) for every possible outcome of the subsequent calendar-sync
step; sync outcomes surface only in the advisory `syncStatus` field. -/
theorem crud_sync_failures_nonfatal :
    (∀ hutId eventName contactName (startTime endTime : Int) newId env,
      hutId ≠ "" → jsTrim eventName ≠ "" → startTime < endTime →
      (createBooking hutId eventName contactName startTime endTime true true newId env).error
        = none
      ∧ ((createBooking hutId eventName contactName startTime endTime true true newId
          env).data).isSome = true)
    ∧ (∀ bookingId fetchedHutId env,
      (deleteBooking (some bookingId) true fetchedHutId true env).success = true
      ∧ (deleteBooking (some bookingId) true fetchedHutId true env).error = none)
    ∧ (∀ bookingId row env,
      (updateBooking (some bookingId) true (some row) env).error = none
      ∧ (updateBooking (some bookingId) true (some row) env).data = some row)
    ∧ (∀ bookingId row env,
      (cancelBooking (some bookingId) (some row) env).error = none
      ∧ (cancelBooking (some bookingId) (some row) env).data = some row) := by
  refine ⟨?_, ?_, ?_, ?_⟩
  · intro hutId eventName contactName startTime endTime newId env h1 h2 h3
    constructor <;> simp [createBooking, h1, h2, not_le.mpr h3]
  · intro bookingId fetchedHutId env
    constructor <;> simp [deleteBooking]
  · intro bookingId row env
    constructor <;> simp [updateBooking]
  · intro bookingId row env
    constructor <;> simp [cancelBooking]

/-- Witness for `crud_sync_failures_nonfatal`: with every sync-step input
failing (no hut settings, no token, failed event creation/deletion, failed
record writes), all four operations still report success after a successful
primary write. -/
theorem crud_sync_failures_nonfatal_witness :
    (createBooking "h1" "Party" none 100 200 true true 1
      { hutLookup := none, accessToken := none, createResult := none,
        recordSyncOk := false }).error = none
    ∧ (deleteBooking (some 1) true none true
      { syncLookup := .queryError, hutLookup := none, accessToken := none,
        deleteEventOk := false, deleteRecordOk := false }).success = true
    ∧ (updateBooking (some 1) true
      (some { id := 1, hutId := "h1", eventName := "Party", contactName := none,
              startTime := 100, endTime := 200, status := "confirmed" })
      { hutLookup := none, accessToken := none, syncLookup := .queryError,
        updateResult := .failed, updateRecordOk := false, createResult := none,
        recordSyncOk := false }).error = none
    ∧ (cancelBooking (some 1)
      (some { id := 1, hutId := "h1", eventName := "Party", contactName := none,
              startTime := 100, endTime := 200, status := "cancelled" })
      { syncLookup := .queryError, hutLookup := none, accessToken := none,
        deleteEventOk := false, deleteRecordOk := false }).error = none :=
  ⟨(crud_sync_failures_nonfatal.1 "h1" "Party" none 100 200 1
      { hutLookup := none, accessToken := none, createResult := none,
        recordSyncOk := false } (by decide) (by decide) (by norm_num)).1,
   (crud_sync_failures_nonfatal.2.1 1 none
      { syncLookup := .queryError, hutLookup := none, accessToken := none,
        deleteEventOk := false, deleteRecordOk := false }).1,
   (crud_sync_failures_nonfatal.2.2.1 1
      { id := 1, hutId := "h1", eventName := "Party", contactName := none,
        startTime := 100, endTime := 200, status := "confirmed" }
      { hutLookup := none, accessToken := none, syncLookup := .queryError,
        updateResult := .failed, updateRecordOk := false, createResult := none,
        recordSyncOk := false }).1,
   (crud_sync_failures_nonfatal.2.2.2 1
      { id := 1, hutId := "h1", eventName := "Party", contactName := none,
        startTime := 100, endTime := 200, status := "cancelled" }
      { syncLookup := .queryError, hutLookup := none, accessToken := none,
        deleteEventOk := false, deleteRecordOk := false }).1⟩

/-! ## Structural lemmas about the reconciliation passes -/

/-- Updating rows in place preserves the key pair of every row, hence the
pair list itself. -/
theorem pairKeys_map_eq (table : List SyncedEvent) (f : SyncedEvent → SyncedEvent)
    (hf : ∀ x, (f x).hutId = x.hutId ∧ (f x).googleEventId = x.googleEventId) :
    pairKeys (table.map f) = pairKeys table := by
  unfold pairKeys
  rw [List.map_map]
  exact List.map_congr_left (fun x _ => by simp [(hf x).1, (hf x).2])

/-- Updating rows in place preserves every primary key. -/
theorem ids_map_eq (table : List SyncedEvent) (f : SyncedEvent → SyncedEvent)
    (hf : ∀ x, (f x).id = x.id) :
    (table.map f).map SyncedEvent.id = table.map SyncedEvent.id := by
  rw [List.map_map]
  exact List.map_congr_left (fun x _ => hf x)

/-- One import-loop step preserves `Nodup` of the key pairs: updates keep
every pair, and an insert is guarded by the UNIQUE-constraint check. -/
theorem pairsNodup_importApplyEvent (hutId : String) (snapshot : List SyncedEvent)
    (s : ImportState) (e : GoogleEvent) (h : (pairKeys s.table).Nodup) :
    (pairKeys (importApplyEvent hutId snapshot s e).table).Nodup := by
  unfold importApplyEvent
  cases hf : snapshot.find? (fun r => r.googleEventId == e.id) with
  | some r0 =>
    by_cases hm : matchesEventData r0 e = true
    · simpa [hm] using h
    · simp only [hm, if_false, Bool.false_eq_true]
      rw [pairKeys_map_eq _ _ (fun x => by by_cases hx : x.id == r0.id <;> simp [hx])]
      exact h
  | none =>
    by_cases ha : s.table.any (fun x => x.hutId == hutId && x.googleEventId == e.id) = true
    · simpa [ha] using h
    · simp only [ha, if_false, Bool.false_eq_true]
      unfold pairKeys
      rw [List.map_append]
      simp only [List.map_cons, List.map_nil]
      refine List.nodup_append.mpr ⟨h, List.nodup_singleton _, ?_⟩
      intro a hamem hb
      rw [List.mem_singleton] at hb
      subst hb
      rcases List.mem_map.mp hamem with ⟨x, hx, hpair⟩
      refine ha (List.any_eq_true.mpr ⟨x, hx, ?_⟩)
      have h1 : x.hutId = hutId := congrArg Prod.fst hpair
      have h2 : x.googleEventId = e.id := congrArg Prod.snd hpair
      simp [h1, h2]

/-- The deletion sweep of an import pass only removes rows. -/
theorem importDeletePhase_table_sublist (snapshot : List SyncedEvent) (seenIds : List Nat)
    (s : ImportState) : (importDeletePhase snapshot seenIds s).table.Sublist s.table := by
  induction snapshot generalizing s with
  | nil => exact List.Sublist.refl _
  | cons r rest ih =>
    unfold importDeletePhase at ih ⊢
    rw [List.foldl_cons]
    refine List.Sublist.trans (ih _) ?_
    by_cases hc : seenIds.contains r.googleEventId = true
    · rw [if_pos hc]
    · rw [if_neg hc]
      exact List.filter_sublist _

/-- An import pass preserves `Nodup` of the key pairs. -/
theorem pairsNodup_syncFromGoogleCalendar (hutId : String) (events : List GoogleEvent)
    (table : List SyncedEvent) (nextId : Nat) (h : (pairKeys table).Nodup) :
    (pairKeys (syncFromGoogleCalendar hutId events table nextId).table).Nodup := by
  unfold syncFromGoogleCalendar
  have hfold : ∀ (l : List GoogleEvent) (s : ImportState), (pairKeys s.table).Nodup →
      (pairKeys (l.foldl (importApplyEvent hutId (importSnapshot hutId table)) s).table).Nodup := by
    intro l
    induction l with
    | nil => exact fun s hs => hs
    | cons e rest ih =>
      intro s hs
      exact ih _ (pairsNodup_importApplyEvent _ _ _ _ hs)
  have hsub := importDeletePhase_table_sublist (importSnapshot hutId table)
    (events.map GoogleEvent.id)
    (events.foldl (importApplyEvent hutId (importSnapshot hutId table))
      { table := table, nextId := nextId, imported := 0, updated := 0, deleted := 0 })
  exact (hfold events _ h).sublist (hsub.map _)

/-- One export-loop step preserves `Nodup` of the key pairs. -/
theorem pairsNodup_exportApplyBooking (hutId : String) (oracle : CalendarApiOracle)
    (snapshot : List SyncedEvent) (s : ExportState) (b : Booking)
    (h : (pairKeys s.table).Nodup) :
    (pairKeys (exportApplyBooking hutId oracle snapshot s b).table).Nodup := by
  unfold exportApplyBooking
  cases hf : snapshot.find? (fun r => r.bookingId == some b.id) with
  | some m =>
    by_cases hm : (m.startTime == b.startTime && m.endTime == b.endTime &&
        m.title == exportSummary b) = true
    · simpa [hm] using h
    · simp only [hm, Bool.false_eq_true, if_false]
      by_cases hu : oracle.updateOk m.googleEventId = true
      · simp only [hu, if_true]
        rw [pairKeys_map_eq _ _ (fun x => by by_cases hx : x.id == m.id <;> simp [hx])]
        exact h
      · simpa [hu] using h
  | none =>
    cases hc : oracle.createOk b.id with
    | none => simpa using h
    | some gid =>
      by_cases ha : s.table.any (fun x => x.hutId == hutId && x.googleEventId == gid) = true
      · simpa [ha] using h
      · simp only [ha, if_false, Bool.false_eq_true]
        unfold pairKeys
        rw [List.map_append]
        simp only [List.map_cons, List.map_nil]
        refine List.nodup_append.mpr ⟨h, List.nodup_singleton _, ?_⟩
        intro a hamem hb
        rw [List.mem_singleton] at hb
        subst hb
        rcases List.mem_map.mp hamem with ⟨x, hx, hpair⟩
        refine ha (List.any_eq_true.mpr ⟨x, hx, ?_⟩)
        have h1 : x.hutId = hutId := congrArg Prod.fst hpair
        have h2 : x.googleEventId = gid := congrArg Prod.snd hpair
        simp [h1, h2]

/-- The cleanup sweep of an export pass only removes rows. -/
theorem exportCleanupPhase_table_sublist (oracle : CalendarApiOracle)
    (snapshot : List SyncedEvent) (processedBookingIds : List Nat) (s : ExportState) :
    (exportCleanupPhase oracle snapshot processedBookingIds s).table.Sublist s.table := by
  induction snapshot generalizing s with
  | nil => exact List.Sublist.refl _
  | cons m rest ih =>
    unfold exportCleanupPhase at ih ⊢
    rw [List.foldl_cons]
    refine List.Sublist.trans (ih _) ?_
    cases hb : m.bookingId with
    | none =>
      simp only [hb]
      exact List.Sublist.refl _
    | some bid =>
      simp only [hb]
      by_cases hc : processedBookingIds.contains bid = true
      · rw [if_pos hc]
      · rw [if_neg hc]
        by_cases hd : oracle.deleteOk m.googleEventId = true
        · rw [if_pos hd]
          exact List.filter_sublist _
        · rw [if_neg hd]

/-- An export pass preserves `Nodup` of the key pairs. -/
theorem pairsNodup_syncToGoogleCalendar (hutId : String) (now : Int)
    (oracle : CalendarApiOracle) (bookingsTable : List Booking)
    (table : List SyncedEvent) (nextId : Nat) (h : (pairKeys table).Nodup) :
    (pairKeys (syncToGoogleCalendar hutId now oracle bookingsTable table nextId).table).Nodup := by
  unfold syncToGoogleCalendar
  have hfold : ∀ (l : List Booking) (s : ExportState), (pairKeys s.table).Nodup →
      (pairKeys (l.foldl (exportApplyBooking hutId oracle (exportSnapshot hutId table)) s).table).Nodup := by
    intro l
    induction l with
    | nil => exact fun s hs => hs
    | cons b rest ih =>
      intro s hs
      exact ih _ (pairsNodup_exportApplyBooking _ _ _ _ _ hs)
  have hsub := exportCleanupPhase_table_sublist oracle (exportSnapshot hutId table)
    ((confirmedFutureBookings hutId now bookingsTable).map Booking.id)
    ((confirmedFutureBookings hutId now bookingsTable).foldl
      (exportApplyBooking hutId oracle (exportSnapshot hutId table))
      { table := table, nextId := nextId, created := 0, updated := 0, deleted := 0 })
  exact (hfold _ _ h).sublist (hsub.map _)

/-! ## C6 — at most one mirror record per (venue, external event) -/

/-- **C6**: after any sequence of sync passes in either direction, the mirror
table never holds two records with the same `(hut_id, google_event_id)` pair:
updates rewrite rows in place, and both passes' inserts are guarded by the
UNIQUE constraint `synced_events_hut_google_unique`. -/
theorem mirror_pair_uniqueness_invariant (ps : List PassInvocation)
    (table : List SyncedEvent) (nextId : Nat) (h : (pairKeys table).Nodup) :
    (pairKeys (runPasses ps (table, nextId)).1).Nodup := by
  induction ps generalizing table nextId with
  | nil => exact h
  | cons p rest ih =>
    have hstep : (pairKeys (runPass p (table, nextId)).1).Nodup := by
      cases p with
      | importPass hutId events => exact pairsNodup_syncFromGoogleCalendar _ _ _ _ h
      | exportPass hutId now oracle bookingsTable =>
        exact pairsNodup_syncToGoogleCalendar _ _ _ _ _ _ h
    simpa [runPasses, List.foldl_cons] using ih (runPass p (table, nextId)).1
      (runPass p (table, nextId)).2 hstep

/-- Witness for `mirror_pair_uniqueness_invariant`: one import pass followed
by one export pass on a concrete store keeps the pair list duplicate-free. -/
theorem mirror_pair_uniqueness_invariant_witness :
    (pairKeys (runPasses
      [PassInvocation.importPass "h1"
        [{ id := 11, summary := "Dentist", startTime := 100, endTime := 200 }],
       PassInvocation.exportPass "h1" 0
        { createOk := fun _ => some 99, updateOk := fun _ => true, deleteOk := fun _ => true }
        [{ id := 1, hutId := "h1", eventName := "Party", contactName := none,
           startTime := 300, endTime := 400, status := "confirmed" }]]
      ([], 0)).1).Nodup :=
  mirror_pair_uniqueness_invariant _ [] 0 List.nodup_nil

/-! ## C7 — atomicity of the export cleanup step -/

/-- A row that no cleanup step targets survives the cleanup sweep. -/
theorem exportCleanupPhase_keep (oracle : CalendarApiOracle) (proc : List Nat)
    (x : SyncedEvent) :
    ∀ (snap : List SyncedEvent),
      (∀ r ∈ snap, ∀ bid, r.bookingId = some bid → proc.contains bid = false →
        oracle.deleteOk r.googleEventId = true → x.id ≠ r.id) →
      ∀ (s : ExportState), x ∈ s.table →
        x ∈ (exportCleanupPhase oracle snap proc s).table := by
  intro snap
  induction snap with
  | nil => exact fun _ s hx => hx
  | cons r rest ih =>
    intro hcond s hx
    unfold exportCleanupPhase
    rw [List.foldl_cons]
    have hrest : ∀ r' ∈ rest, ∀ bid, r'.bookingId = some bid → proc.contains bid = false →
        oracle.deleteOk r'.googleEventId = true → x.id ≠ r'.id :=
      fun r' hr' => hcond r' (List.mem_cons_of_mem r hr')
    refine ih hrest _ ?_
    cases hb : r.bookingId with
    | none => simpa [hb] using hx
    | some bid =>
      simp only [hb]
      by_cases hc : proc.contains bid = true
      · rw [if_pos hc]
        exact hx
      · rw [if_neg hc]
        by_cases hd : oracle.deleteOk r.googleEventId = true
        · rw [if_pos hd]
          have hcf : proc.contains bid = false := Bool.eq_false_iff.mpr hc
          have hne := hcond r (List.mem_cons_self r rest) bid hb hcf hd
          exact List.mem_filter.mpr ⟨hx, bne_iff_ne.mpr hne⟩
        · rw [if_neg hd]
          exact hx

/-- Every row whose primary key a firing cleanup step targets is absent from
the sweep's result. -/
theorem exportCleanupPhase_removes (oracle : CalendarApiOracle) (proc : List Nat)
    (r0 : SyncedEvent) (bid0 : Nat) (hbid0 : r0.bookingId = some bid0)
    (hcont : proc.contains bid0 = false) (hdel : oracle.deleteOk r0.googleEventId = true) :
    ∀ (snap : List SyncedEvent), r0 ∈ snap → ∀ (s : ExportState),
      ∀ x ∈ (exportCleanupPhase oracle snap proc s).table, x.id ≠ r0.id := by
  intro snap
  induction snap with
  | nil => exact fun h => absurd h (List.not_mem_nil r0)
  | cons r rest ih =>
    intro hr0 s x hx
    unfold exportCleanupPhase at hx
    rw [List.foldl_cons] at hx
    rcases List.mem_cons.mp hr0 with heq | hmem
    · subst heq
      simp only [hbid0] at hx
      rw [if_neg (fun he => by rw [he] at hcont; cases hcont), if_pos hdel] at hx
      have hx1 := (exportCleanupPhase_table_sublist oracle rest proc _).subset hx
      have := (List.mem_filter.mp hx1).2
      exact bne_iff_ne.mp this
    · exact ih hmem _ x hx

/-- Through the booking loop of an export pass, a mirror row whose booking id
is not among the processed bookings is carried through untouched, and the
primary-key invariants are maintained. -/
theorem exportLoop_preserves (hutId : String) (oracle : CalendarApiOracle)
    (snapshot : List SyncedEvent) (m : SyncedEvent) (bid : Nat)
    (hmbid : m.bookingId = some bid)
    (hsnapm : ∀ r ∈ snapshot, r.id = m.id → r = m) :
    ∀ (l : List Booking), (∀ b ∈ l, b.id ≠ bid) →
    ∀ (s : ExportState), m ∈ s.table → (s.table.map SyncedEvent.id).Nodup →
      (∀ r ∈ s.table, r.id < s.nextId) →
      m ∈ (l.foldl (exportApplyBooking hutId oracle snapshot) s).table
      ∧ ((l.foldl (exportApplyBooking hutId oracle snapshot) s).table.map
          SyncedEvent.id).Nodup
      ∧ (∀ r ∈ (l.foldl (exportApplyBooking hutId oracle snapshot) s).table,
          r.id < (l.foldl (exportApplyBooking hutId oracle snapshot) s).nextId) := by
  intro l
  induction l with
  | nil => exact fun _ s hm hids hfresh => ⟨hm, hids, hfresh⟩
  | cons b rest ih =>
    intro hbids s hm hids hfresh
    rw [List.foldl_cons]
    have hbb : b.id ≠ bid := hbids b (List.mem_cons_self b rest)
    have hrest : ∀ b' ∈ rest, b'.id ≠ bid := fun b' hb' => hbids b' (List.mem_cons_of_mem b hb')
    have hstep : m ∈ (exportApplyBooking hutId oracle snapshot s b).table
        ∧ ((exportApplyBooking hutId oracle snapshot s b).table.map SyncedEvent.id).Nodup
        ∧ (∀ r ∈ (exportApplyBooking hutId oracle snapshot s b).table,
            r.id < (exportApplyBooking hutId oracle snapshot s b).nextId) := by
      unfold exportApplyBooking
      cases hf : snapshot.find? (fun r => r.bookingId == some b.id) with
      | some m2 =>
        have hm2mem := List.mem_of_find?_eq_some hf
        have hm2bid : m2.bookingId = some b.id := by simpa using List.find?_some hf
        by_cases hmatch : (m2.startTime == b.startTime && m2.endTime == b.endTime &&
            m2.title == exportSummary b) = true
        · simp only [hmatch, if_true]
          exact ⟨hm, hids, hfresh⟩
        · simp only [hmatch, Bool.false_eq_true, if_false]
          by_cases hupd : oracle.updateOk m2.googleEventId = true
          · simp only [hupd, if_true]
            have hne : m.id ≠ m2.id := by
              intro he
              have hm2m : m2 = m := hsnapm m2 hm2mem he.symm
              rw [hm2m, hmbid] at hm2bid
              injection hm2bid with hbb'
              exact hbb hbb'.symm
            refine ⟨?_, ?_, ?_⟩
            · exact List.mem_map.mpr ⟨m, hm, by simp [hne]⟩
            · rw [ids_map_eq _ _ (fun x => by by_cases hx : x.id == m2.id <;> simp [hx])]
              exact hids
            · intro r hr
              rcases List.mem_map.mp hr with ⟨x, hxmem, rfl⟩
              have hxid : (if x.id == m2.id then
                  { x with startTime := b.startTime, endTime := b.endTime,
                           title := exportSummary b } else x).id = x.id := by
                by_cases hx : x.id == m2.id <;> simp [hx]
              rw [hxid]
              exact hfresh x hxmem
          · simp only [hupd, Bool.false_eq_true, if_false]
            exact ⟨hm, hids, hfresh⟩
      | none =>
        cases hc : oracle.createOk b.id with
        | none => exact ⟨hm, hids, hfresh⟩
        | some gid =>
          by_cases ha : s.table.any (fun x => x.hutId == hutId && x.googleEventId == gid) = true
          · simp only [ha, if_true]
            exact ⟨hm, hids, hfresh⟩
          · simp only [ha, Bool.false_eq_true, if_false]
            refine ⟨List.mem_append.mpr (Or.inl hm), ?_, ?_⟩
            · rw [List.map_append]
              simp only [List.map_cons, List.map_nil]
              refine List.nodup_append.mpr ⟨hids, List.nodup_singleton _, ?_⟩
              intro i hi hi2
              rw [List.mem_singleton] at hi2
              subst hi2
              rcases List.mem_map.mp hi with ⟨x, hxmem, hxid⟩
              exact absurd hxid (Nat.ne_of_lt (hfresh x hxmem))
            · intro r hr
              rcases List.mem_append.mp hr with hr1 | hr2
              · exact Nat.lt_succ_of_lt (hfresh r hr1)
              · rw [List.mem_singleton] at hr2
                subst hr2
                exact Nat.lt_succ_self _
    exact ih hrest _ hstep.1 hstep.2.1 hstep.2.2

/-- **C7**: in the export pass, for every mirror row whose reservation is no
longer in the confirmed-future set, the external event is deleted first and
the mirror row is deleted exactly when that external deletion succeeds; a
failed external deletion leaves the mirror row in place (unchanged) for retry
on the next pass. -/
theorem exportPass_cleanup_atomicity (hutId : String) (now : Int)
    (oracle : CalendarApiOracle) (bookingsTable : List Booking)
    (table : List SyncedEvent) (nextId : Nat) (m : SyncedEvent) (bid : Nat)
    (hids : (table.map SyncedEvent.id).Nodup)
    (hfresh : ∀ r ∈ table, r.id < nextId)
    (hm : m ∈ table) (hhut : m.hutId = hutId) (htype : m.eventType = "scout_to_google")
    (hmbid : m.bookingId = some bid)
    (hgone : ∀ b ∈ confirmedFutureBookings hutId now bookingsTable, b.id ≠ bid) :
    (oracle.deleteOk m.googleEventId = false →
      m ∈ (syncToGoogleCalendar hutId now oracle bookingsTable table nextId).table)
    ∧ (oracle.deleteOk m.googleEventId = true →
      ∀ x ∈ (syncToGoogleCalendar hutId now oracle bookingsTable table nextId).table,
        x.id ≠ m.id) := by
  have hsnapm : ∀ r ∈ exportSnapshot hutId table, r.id = m.id → r = m := by
    intro r hr he
    exact List.inj_on_of_nodup_map hids (List.mem_of_mem_filter hr) hm he
  have hmsnap : m ∈ exportSnapshot hutId table :=
    List.mem_filter.mpr ⟨hm, by simp [hhut, htype]⟩
  have hcont : ((confirmedFutureBookings hutId now bookingsTable).map
      Booking.id).contains bid = false := by
    rw [Bool.eq_false_iff]
    intro hcc
    have hmem : bid ∈ (confirmedFutureBookings hutId now bookingsTable).map Booking.id := by
      simpa using hcc
    rcases List.mem_map.mp hmem with ⟨b, hb, hbid'⟩
    exact hgone b hb hbid'
  have hloop := exportLoop_preserves hutId oracle (exportSnapshot hutId table) m bid
    hmbid hsnapm (confirmedFutureBookings hutId now bookingsTable)
    (fun b hb => hgone b hb)
    { table := table, nextId := nextId, created := 0, updated := 0, deleted := 0 }
    hm hids hfresh
  constructor
  · intro hdel
    unfold syncToGoogleCalendar
    refine exportCleanupPhase_keep oracle _ m (exportSnapshot hutId table) ?_ _ hloop.1
    intro r hr bid' hb' hc' hd' he
    have hrm : r = m := hsnapm r hr he.symm
    rw [hrm] at hd'
    rw [hdel] at hd'
    cases hd'
  · intro hdel
    unfold syncToGoogleCalendar
    exact exportCleanupPhase_removes oracle _ m bid hmbid hcont hdel
      (exportSnapshot hutId table) hmsnap _

/-- Witness for `exportPass_cleanup_atomicity` at a concrete state: an
orphaned exported mirror row survives the pass when the external deletion
fails and is gone when it succeeds. -/
theorem exportPass_cleanup_atomicity_witness :
    ({ id := 5, hutId := "h1", googleEventId := 11, bookingId := some 3,
       eventType := "scout_to_google", startTime := 100, endTime := 200,
       title := "Scout Booking: Party" } : SyncedEvent)
      ∈ (syncToGoogleCalendar "h1" 0
        { createOk := fun _ => none, updateOk := fun _ => false, deleteOk := fun _ => false }
        []
        [{ id := 5, hutId := "h1", googleEventId := 11, bookingId := some 3,
           eventType := "scout_to_google", startTime := 100, endTime := 200,
           title := "Scout Booking: Party" }] 6).table
    ∧ (∀ x ∈ (syncToGoogleCalendar "h1" 0
        { createOk := fun _ => none, updateOk := fun _ => false, deleteOk := fun _ => true }
        []
        [{ id := 5, hutId := "h1", googleEventId := 11, bookingId := some 3,
           eventType := "scout_to_google", startTime := 100, endTime := 200,
           title := "Scout Booking: Party" }] 6).table, x.id ≠ 5) :=
  ⟨(exportPass_cleanup_atomicity "h1" 0
      { createOk := fun _ => none, updateOk := fun _ => false, deleteOk := fun _ => false }
      []
      [{ id := 5, hutId := "h1", googleEventId := 11, bookingId := some 3,
         eventType := "scout_to_google", startTime := 100, endTime := 200,
         title := "Scout Booking: Party" }] 6
      { id := 5, hutId := "h1", googleEventId := 11, bookingId := some 3,
        eventType := "scout_to_google", startTime := 100, endTime := 200,
        title := "Scout Booking: Party" } 3
      (by decide) (by decide) (by decide) rfl rfl rfl (by decide)).1 rfl,
   (exportPass_cleanup_atomicity "h1" 0
      { createOk := fun _ => none, updateOk := fun _ => false, deleteOk := fun _ => true }
      []
      [{ id := 5, hutId := "h1", googleEventId := 11, bookingId := some 3,
         eventType := "scout_to_google", startTime := 100, endTime := 200,
         title := "Scout Booking: Party" }] 6
      { id := 5, hutId := "h1", googleEventId := 11, bookingId := some 3,
        eventType := "scout_to_google", startTime := 100, endTime := 200,
        title := "Scout Booking: Party" } 3
      (by decide) (by decide) (by decide) rfl rfl rfl (by decide)).2 rfl⟩

/-! ## C5 — idempotency of the import pass -/

/-- Membership in the import pass's deletion sweep: a row survives exactly
when it was there before and no unseen pre-pass mirror row shares its primary
key. -/
theorem mem_importDeletePhase_iff (seen : List Nat) :
    ∀ (snap : List SyncedEvent) (s : ImportState) (x : SyncedEvent),
      x ∈ (importDeletePhase snap seen s).table ↔
        x ∈ s.table ∧ ∀ r ∈ snap, seen.contains r.googleEventId = false → x.id ≠ r.id := by
  intro snap
  induction snap with
  | nil =>
    intro s x
    simp [importDeletePhase]
  | cons r rest ih =>
    intro s x
    unfold importDeletePhase
    rw [List.foldl_cons]
    refine Iff.trans (ih _ x) ?_
    simp only [List.forall_mem_cons]
    by_cases hc : seen.contains r.googleEventId = true
    · rw [if_pos hc]
      constructor
      · rintro ⟨h1, h2⟩
        exact ⟨h1, fun hcf => absurd hc (by rw [hcf]; exact Bool.false_ne_true), h2⟩
      · rintro ⟨h1, _, h2⟩
        exact ⟨h1, h2⟩
    · rw [if_neg hc]
      have hcf : seen.contains r.googleEventId = false := Bool.eq_false_iff.mpr hc
      constructor
      · rintro ⟨h1, h2⟩
        have := List.mem_filter.mp h1
        exact ⟨this.1, fun _ => bne_iff_ne.mp this.2, h2⟩
      · rintro ⟨h1, hr, h2⟩
        exact ⟨List.mem_filter.mpr ⟨h1, bne_iff_ne.mpr (hr hcf)⟩, h2⟩

/-- An import-loop step is the identity when the event is already mirrored
with identical data, or when the UNIQUE constraint blocks its import. -/
theorem importApplyEvent_noop (hutId : String) (snap : List SyncedEvent)
    (s : ImportState) (e : GoogleEvent)
    (h : (∃ r, snap.find? (fun r => r.googleEventId == e.id) = some r ∧
            matchesEventData r e = true)
       ∨ (snap.find? (fun r => r.googleEventId == e.id) = none ∧
            s.table.any (fun x => x.hutId == hutId && x.googleEventId == e.id) = true)) :
    importApplyEvent hutId snap s e = s := by
  unfold importApplyEvent
  rcases h with ⟨r, hf, hm⟩ | ⟨hf, ha⟩
  · simp only [hf, hm, if_true]
  · simp only [hf, ha, if_true]

/-- The import event loop is the identity when every event satisfies the
no-op condition against a fixed table. -/
theorem importFold_noop (hutId : String) (snap : List SyncedEvent) (T : List SyncedEvent) :
    ∀ (l : List GoogleEvent),
      (∀ e ∈ l, (∃ r, snap.find? (fun r => r.googleEventId == e.id) = some r ∧
            matchesEventData r e = true)
        ∨ (snap.find? (fun r => r.googleEventId == e.id) = none ∧
            T.any (fun x => x.hutId == hutId && x.googleEventId == e.id) = true)) →
      ∀ (s : ImportState), s.table = T →
        l.foldl (importApplyEvent hutId snap) s = s := by
  intro l
  induction l with
  | nil => exact fun _ s _ => rfl
  | cons e rest ih =>
    intro hcond s hsT
    rw [List.foldl_cons]
    have hstep : importApplyEvent hutId snap s e = s := by
      apply importApplyEvent_noop
      rcases hcond e (List.mem_cons_self e rest) with h | ⟨hf, ha⟩
      · exact Or.inl h
      · exact Or.inr ⟨hf, by rw [hsT]; exact ha⟩
    rw [hstep]
    exact ih (fun e' he' => hcond e' (List.mem_cons_of_mem e he')) s hsT

/-- The deletion sweep is the identity when every snapshot row's external id
was seen. -/
theorem importDeletePhase_noop (seen : List Nat) :
    ∀ (snap : List SyncedEvent),
      (∀ r ∈ snap, seen.contains r.googleEventId = true) →
      ∀ (s : ImportState), importDeletePhase snap seen s = s := by
  intro snap
  induction snap with
  | nil => exact fun _ s => rfl
  | cons r rest ih =>
    intro h s
    unfold importDeletePhase
    rw [List.foldl_cons, if_pos (h r (List.mem_cons_self r rest))]
    exact ih (fun r' hr' => h r' (List.mem_cons_of_mem r hr')) s

/-- Rows of the import snapshot: they lie in the original table, belong to
the hut and have the imported direction. -/
theorem mem_importSnapshot (hutId : String) (T0 : List SyncedEvent) (r : SyncedEvent)
    (hr : r ∈ importSnapshot hutId T0) :
    r ∈ T0 ∧ r.hutId = hutId ∧ r.eventType = "google_to_scout" := by
  have h' := List.mem_filter.mp hr
  have h2 := h'.2
  simp only [Bool.and_eq_true, beq_iff_eq] at h2
  exact ⟨h'.1, h2.1, h2.2⟩

/-- One step of the import event loop preserves the loop invariant, moving
the processed event from the remainder to the done list. -/
theorem importApplyEvent_inv (hutId : String) (T0 : List SyncedEvent)
    (p : List GoogleEvent) (e : GoogleEvent) (l : List GoogleEvent) (s : ImportState)
    (hnodup : ((p ++ e :: l).map GoogleEvent.id).Nodup)
    (inv : ImportInv hutId T0 p ((e :: l).map GoogleEvent.id) s) :
    ImportInv hutId T0 (p ++ [e]) (l.map GoogleEvent.id)
      (importApplyEvent hutId (importSnapshot hutId T0) s e) := by
  have hsplit : ((p.map GoogleEvent.id) ++ (e.id :: l.map GoogleEvent.id)).Nodup := by
    rw [← List.map_cons, ← List.map_append]
    exact hnodup
  rcases List.nodup_append.mp hsplit with ⟨_, hconsNodup, hdisj⟩
  have hpnotin : e.id ∉ p.map GoogleEvent.id :=
    fun hmem => hdisj hmem (List.mem_cons_self _ _)
  have hlnotin : e.id ∉ l.map GoogleEvent.id := (List.nodup_cons.mp hconsNodup).1
  unfold importApplyEvent
  cases hf : (importSnapshot hutId T0).find? (fun r => r.googleEventId == e.id) with
  | some r0 =>
    have hr0snap := List.mem_of_find?_eq_some hf
    have hr0key : r0.googleEventId = e.id := by simpa using List.find?_some hf
    obtain ⟨hr0T0, hr0hut, hr0type⟩ := mem_importSnapshot hutId T0 r0 hr0snap
    by_cases hm : matchesEventData r0 e = true
    · simp only [hm, if_true]
      refine { idsNodup := inv.idsNodup, pairsNodup := inv.pairsNodup, fresh := inv.fresh,
               keyFields := inv.keyFields, kept := inv.kept,
               origin := ?_, freshData := ?_, done := ?_ }
      · intro x hx
        rcases inv.origin x hx with h | ⟨h1, h2, h3⟩
        · exact Or.inl h
        · exact Or.inr ⟨h1, h2, by rw [List.map_append]; exact List.mem_append_left _ h3⟩
      · intro x hx y hy hid hrem
        exact inv.freshData x hx y hy hid
          (by rw [List.map_cons]; exact List.mem_cons_of_mem _ hrem)
      · intro e' he'
        rcases List.mem_append.mp he' with he1 | he2
        · exact inv.done e' he1
        · rw [List.mem_singleton] at he2
          rw [he2]
          obtain ⟨x, hxmem, hxid⟩ := inv.kept r0 hr0T0
          obtain ⟨hk1, hk2, hk3⟩ := inv.keyFields x hxmem r0 hr0T0 hxid
          obtain ⟨hd1, hd2, hd3⟩ := inv.freshData x hxmem r0 hr0T0 hxid
            (by rw [hk2, hr0key, List.map_cons]; exact List.mem_cons_self _ _)
          refine Or.inl ⟨x, hxmem, hk1.trans hr0hut, hk3.trans hr0type,
            hk2.trans hr0key, ?_⟩
          unfold matchesEventData at hm ⊢
          rw [hd1, hd2, hd3]
          exact hm
    · simp only [hm, Bool.false_eq_true, if_false]
      have hproj : ∀ x : SyncedEvent,
          ((if x.id == r0.id then
            { x with startTime := e.startTime, endTime := e.endTime, title := e.summary }
          else x) : SyncedEvent).id = x.id
          ∧ ((if x.id == r0.id then
            { x with startTime := e.startTime, endTime := e.endTime, title := e.summary }
          else x) : SyncedEvent).hutId = x.hutId
          ∧ ((if x.id == r0.id then
            { x with startTime := e.startTime, endTime := e.endTime, title := e.summary }
          else x) : SyncedEvent).googleEventId = x.googleEventId
          ∧ ((if x.id == r0.id then
            { x with startTime := e.startTime, endTime := e.endTime, title := e.summary }
          else x) : SyncedEvent).eventType = x.eventType := by
        intro x
        by_cases hx : x.id == r0.id <;> simp [hx]
      refine { idsNodup := ?_, pairsNodup := ?_, fresh := ?_, keyFields := ?_, kept := ?_,
               origin := ?_, freshData := ?_, done := ?_ }
      · rw [ids_map_eq _ _ (fun x => (hproj x).1)]
        exact inv.idsNodup
      · rw [pairKeys_map_eq _ _ (fun x => ⟨(hproj x).2.1, (hproj x).2.2.1⟩)]
        exact inv.pairsNodup
      · intro r hr
        rcases List.mem_map.mp hr with ⟨x, hx, rfl⟩
        rw [(hproj x).1]
        exact inv.fresh x hx
      · intro x' hx' y hy hid
        rcases List.mem_map.mp hx' with ⟨x, hx, rfl⟩
        rw [(hproj x).1] at hid
        obtain ⟨hk1, hk2, hk3⟩ := inv.keyFields x hx y hy hid
        exact ⟨(hproj x).2.1.trans hk1, (hproj x).2.2.1.trans hk2, (hproj x).2.2.2.trans hk3⟩
      · intro y hy
        obtain ⟨x, hx, hid⟩ := inv.kept y hy
        exact ⟨_, List.mem_map_of_mem _ hx, (hproj x).1.trans hid⟩
      · intro x' hx'
        rcases List.mem_map.mp hx' with ⟨x, hx, rfl⟩
        rcases inv.origin x hx with ⟨y, hy, hid⟩ | ⟨h1, h2, h3⟩
        · exact Or.inl ⟨y, hy, (hproj x).1.trans hid⟩
        · refine Or.inr ⟨(hproj x).2.1.trans h1, (hproj x).2.2.2.trans h2, ?_⟩
          rw [(hproj x).2.2.1, List.map_append]
          exact List.mem_append_left _ h3
      · intro x' hx' y hy hid hrem
        rcases List.mem_map.mp hx' with ⟨x, hx, rfl⟩
        by_cases hx0 : (x.id == r0.id) = true
        · exfalso
          have hxid : x.id = r0.id := by simpa using hx0
          have hk := inv.keyFields x hx r0 hr0T0 hxid
          rw [(hproj x).2.2.1, hk.2.1, hr0key] at hrem
          exact hlnotin hrem
        · have hfx : (if x.id == r0.id then
              { x with startTime := e.startTime, endTime := e.endTime, title := e.summary }
            else x) = x := by simp [hx0]
          rw [hfx] at hid hrem ⊢
          exact inv.freshData x hx y hy hid
            (by rw [List.map_cons]; exact List.mem_cons_of_mem _ hrem)
      · intro e' he'
        rcases List.mem_append.mp he' with he1 | he2
        · have hne : ∀ r ∈ s.table, r.googleEventId = e'.id → r.id ≠ r0.id := by
            intro r hrmem hrkey heq
            have hk := inv.keyFields r hrmem r0 hr0T0 heq
            rw [hrkey, hr0key] at hk
            refine hpnotin ?_
            rw [← hk.2.1]
            exact List.mem_map_of_mem _ he1
          rcases inv.done e' he1 with ⟨r, hrmem, ha, hb, hc, hd⟩ | ⟨r, hrmem, ha, hc, hb⟩
          · have hfr : (if r.id == r0.id then
                { r with startTime := e.startTime, endTime := e.endTime, title := e.summary }
              else r) = r := by
              have := hne r hrmem hc
              simp [this]
            exact Or.inl ⟨r, by rw [← hfr]; exact List.mem_map_of_mem _ hrmem, ha, hb, hc, hd⟩
          · have hfr : (if r.id == r0.id then
                { r with startTime := e.startTime, endTime := e.endTime, title := e.summary }
              else r) = r := by
              have := hne r hrmem hc
              simp [this]
            exact Or.inr ⟨r, by rw [← hfr]; exact List.mem_map_of_mem _ hrmem, ha, hc, hb⟩
        · rw [List.mem_singleton] at he2
          rw [he2]
          obtain ⟨x, hxmem, hxid⟩ := inv.kept r0 hr0T0
          obtain ⟨hk1, hk2, hk3⟩ := inv.keyFields x hxmem r0 hr0T0 hxid
          have hxeq : (x.id == r0.id) = true := by simpa using hxid
          refine Or.inl
            ⟨{ x with startTime := e.startTime, endTime := e.endTime, title := e.summary },
             List.mem_map.mpr ⟨x, hxmem, by simp [hxeq]⟩,
             hk1.trans hr0hut, hk3.trans hr0type, hk2.trans hr0key, ?_⟩
          simp [matchesEventData]
  | none =>
    have hnone := List.find?_eq_none.mp hf
    by_cases ha : s.table.any (fun x => x.hutId == hutId && x.googleEventId == e.id) = true
    · simp only [ha, if_true]
      refine { idsNodup := inv.idsNodup, pairsNodup := inv.pairsNodup, fresh := inv.fresh,
               keyFields := inv.keyFields, kept := inv.kept,
               origin := ?_, freshData := ?_, done := ?_ }
      · intro x hx
        rcases inv.origin x hx with h | ⟨h1, h2, h3⟩
        · exact Or.inl h
        · exact Or.inr ⟨h1, h2, by rw [List.map_append]; exact List.mem_append_left _ h3⟩
      · intro x hx y hy hid hrem
        exact inv.freshData x hx y hy hid
          (by rw [List.map_cons]; exact List.mem_cons_of_mem _ hrem)
      · intro e' he'
        rcases List.mem_append.mp he' with he1 | he2
        · exact inv.done e' he1
        · rw [List.mem_singleton] at he2
          rw [he2]
          obtain ⟨x, hxmem, hxpred⟩ := List.any_eq_true.mp ha
          simp only [Bool.and_eq_true, beq_iff_eq] at hxpred
          obtain ⟨hxhut, hxkey⟩ := hxpred
          rcases inv.origin x hxmem with ⟨y, hy, hid⟩ | ⟨_, _, h3⟩
          · obtain ⟨hk1, hk2, hk3⟩ := inv.keyFields x hxmem y hy hid
            by_cases hty : x.eventType = "google_to_scout"
            · exfalso
              refine hnone y (List.mem_filter.mpr ⟨hy, ?_⟩) ?_
              · simp only [Bool.and_eq_true, beq_iff_eq]
                exact ⟨hk1 ▸ hxhut, hk3 ▸ hty⟩
              · simp only [beq_iff_eq]
                exact hk2 ▸ hxkey
            · exact Or.inr ⟨x, hxmem, hxhut, hxkey, hty⟩
          · exfalso
            rw [hxkey] at h3
            exact hpnotin h3
    · simp only [ha, Bool.false_eq_true, if_false]
      have hT0fresh : ∀ y ∈ T0, y.id < s.nextId := by
        intro y hy
        obtain ⟨x, hx, hid⟩ := inv.kept y hy
        rw [← hid]
        exact inv.fresh x hx
      refine { idsNodup := ?_, pairsNodup := ?_, fresh := ?_, keyFields := ?_, kept := ?_,
               origin := ?_, freshData := ?_, done := ?_ }
      · rw [List.map_append]
        simp only [List.map_cons, List.map_nil]
        refine List.nodup_append.mpr ⟨inv.idsNodup, List.nodup_singleton _, ?_⟩
        intro i hi hi2
        rw [List.mem_singleton] at hi2
        subst hi2
        rcases List.mem_map.mp hi with ⟨x, hxmem, hxid⟩
        exact absurd hxid (Nat.ne_of_lt (inv.fresh x hxmem))
      · unfold pairKeys
        rw [List.map_append]
        simp only [List.map_cons, List.map_nil]
        refine List.nodup_append.mpr ⟨inv.pairsNodup, List.nodup_singleton _, ?_⟩
        intro a hamem hb
        rw [List.mem_singleton] at hb
        subst hb
        rcases List.mem_map.mp hamem with ⟨x, hx, hpair⟩
        refine ha (List.any_eq_true.mpr ⟨x, hx, ?_⟩)
        have h1 : x.hutId = hutId := congrArg Prod.fst hpair
        have h2 : x.googleEventId = e.id := congrArg Prod.snd hpair
        simp [h1, h2]
      · intro r hr
        rcases List.mem_append.mp hr with hr1 | hr2
        · exact Nat.lt_succ_of_lt (inv.fresh r hr1)
        · rw [List.mem_singleton] at hr2
          subst hr2
          exact Nat.lt_succ_self _
      · intro x' hx' y hy hid
        rcases List.mem_append.mp hx' with hx1 | hx2
        · exact inv.keyFields x' hx1 y hy hid
        · rw [List.mem_singleton] at hx2
          subst hx2
          exact absurd hid.symm (Nat.ne_of_lt (hT0fresh y hy))
      · intro y hy
        obtain ⟨x, hx, hid⟩ := inv.kept y hy
        exact ⟨x, List.mem_append_left _ hx, hid⟩
      · intro x' hx'
        rcases List.mem_append.mp hx' with hx1 | hx2
        · rcases inv.origin x' hx1 with h | ⟨h1, h2, h3⟩
          · exact Or.inl h
          · exact Or.inr ⟨h1, h2, by rw [List.map_append]; exact List.mem_append_left _ h3⟩
        · rw [List.mem_singleton] at hx2
          subst hx2
          refine Or.inr ⟨rfl, rfl, ?_⟩
          rw [List.map_append]
          refine List.mem_append_right _ ?_
          simp
      · intro x' hx' y hy hid hrem
        rcases List.mem_append.mp hx' with hx1 | hx2
        · exact inv.freshData x' hx1 y hy hid
            (by rw [List.map_cons]; exact List.mem_cons_of_mem _ hrem)
        · rw [List.mem_singleton] at hx2
          subst hx2
          exact absurd hrem hlnotin
      · intro e' he'
        rcases List.mem_append.mp he' with he1 | he2
        · rcases inv.done e' he1 with ⟨r, hrmem, h1, h2, h3, h4⟩ | ⟨r, hrmem, h1, h3, h2⟩
          · exact Or.inl ⟨r, List.mem_append_left _ hrmem, h1, h2, h3, h4⟩
          · exact Or.inr ⟨r, List.mem_append_left _ hrmem, h1, h3, h2⟩
        · rw [List.mem_singleton] at he2
          rw [he2]
          refine Or.inl ⟨_, List.mem_append_right _ (List.mem_singleton.mpr rfl),
            rfl, rfl, rfl, ?_⟩
          simp [matchesEventData]

/-- The loop invariant holds at entry to the import event loop. -/
theorem importInv_init (hutId : String) (T0 : List SyncedEvent) (n0 : Nat)
    (E : List GoogleEvent)
    (hids : (T0.map SyncedEvent.id).Nodup) (hpairs : (pairKeys T0).Nodup)
    (hfresh : ∀ r ∈ T0, r.id < n0) :
    ImportInv hutId T0 [] (E.map GoogleEvent.id)
      { table := T0, nextId := n0, imported := 0, updated := 0, deleted := 0 } :=
  { idsNodup := hids
    pairsNodup := hpairs
    fresh := hfresh
    keyFields := fun x hx y hy hid => by
      have hxy : x = y := List.inj_on_of_nodup_map hids hx hy hid
      rw [hxy]
      exact ⟨rfl, rfl, rfl⟩
    kept := fun y hy => ⟨y, hy, rfl⟩
    origin := fun x hx => Or.inl ⟨x, hx, rfl⟩
    freshData := fun x hx y hy hid _ => by
      have hxy : x = y := List.inj_on_of_nodup_map hids hx hy hid
      rw [hxy]
      exact ⟨rfl, rfl, rfl⟩
    done := fun e' he' => absurd he' (List.not_mem_nil e') }

/-- Folding the import event loop over the remaining events carries the loop
invariant to the end. -/
theorem importFold_inv (hutId : String) (T0 : List SyncedEvent) :
    ∀ (l p : List GoogleEvent) (s : ImportState),
      ((p ++ l).map GoogleEvent.id).Nodup →
      ImportInv hutId T0 p (l.map GoogleEvent.id) s →
      ImportInv hutId T0 (p ++ l) []
        (l.foldl (importApplyEvent hutId (importSnapshot hutId T0)) s) := by
  intro l
  induction l with
  | nil =>
    intro p s _ inv
    rw [List.append_nil]
    exact inv
  | cons e rest ih =>
    intro p s hnodup inv
    rw [List.foldl_cons]
    have hstep := importApplyEvent_inv hutId T0 p e rest s hnodup inv
    have hnodup' : (((p ++ [e]) ++ rest).map GoogleEvent.id).Nodup := by
      rw [List.append_assoc, List.singleton_append]
      exact hnodup
    have hres := ih (p ++ [e]) _ hnodup' hstep
    rw [List.append_assoc, List.singleton_append] at hres
    exact hres

/-- What one import pass guarantees about the resulting mirror table: every
fetched event is accounted for (`DoneEvent`), every imported row of the hut
carries a seen external id, and the key pairs stay duplicate-free. -/
theorem importPass_post (hutId : String) (E : List GoogleEvent)
    (T0 : List SyncedEvent) (n0 : Nat)
    (hev : (E.map GoogleEvent.id).Nodup)
    (hids : (T0.map SyncedEvent.id).Nodup) (hpairs : (pairKeys T0).Nodup)
    (hfresh : ∀ r ∈ T0, r.id < n0) :
    (∀ e ∈ E, DoneEvent hutId (syncFromGoogleCalendar hutId E T0 n0).table e)
    ∧ (∀ x ∈ (syncFromGoogleCalendar hutId E T0 n0).table,
        x.hutId = hutId → x.eventType = "google_to_scout" →
        x.googleEventId ∈ E.map GoogleEvent.id)
    ∧ (pairKeys (syncFromGoogleCalendar hutId E T0 n0).table).Nodup := by
  have hinv := importFold_inv hutId T0 E [] _
    (by simpa using hev) (importInv_init hutId T0 n0 E hids hpairs hfresh)
  rw [List.nil_append] at hinv
  refine ⟨?_, ?_, ?_⟩
  · intro e he
    rcases hinv.done e he with ⟨r, hrmem, h1, h2, h3, h4⟩ | ⟨r, hrmem, h1, h3, h2⟩
    · refine Or.inl ⟨r, ?_, h1, h2, h3, h4⟩
      refine (mem_importDeletePhase_iff _ _ _ r).mpr ⟨hrmem, ?_⟩
      intro r0 hr0 hcont heq
      obtain ⟨hr0T0, _, _⟩ := mem_importSnapshot hutId T0 r0 hr0
      have hk := hinv.keyFields r hrmem r0 hr0T0 heq
      rw [h3] at hk
      have hmemid : e.id ∈ E.map GoogleEvent.id := List.mem_map_of_mem _ he
      rw [hk.2.1] at hmemid
      have hcc : (E.map GoogleEvent.id).contains r0.googleEventId = true := by
        simpa using hmemid
      rw [hcc] at hcont
      exact absurd hcont (by decide)
    · refine Or.inr ⟨r, ?_, h1, h3, h2⟩
      refine (mem_importDeletePhase_iff _ _ _ r).mpr ⟨hrmem, ?_⟩
      intro r0 hr0 hcont heq
      obtain ⟨hr0T0, _, _⟩ := mem_importSnapshot hutId T0 r0 hr0
      have hk := hinv.keyFields r hrmem r0 hr0T0 heq
      rw [h3] at hk
      have hmemid : e.id ∈ E.map GoogleEvent.id := List.mem_map_of_mem _ he
      rw [hk.2.1] at hmemid
      have hcc : (E.map GoogleEvent.id).contains r0.googleEventId = true := by
        simpa using hmemid
      rw [hcc] at hcont
      exact absurd hcont (by decide)
  · intro x hx hxhut hxtype
    obtain ⟨hxmem, hxcond⟩ := (mem_importDeletePhase_iff _ _ _ x).mp hx
    rcases hinv.origin x hxmem with ⟨y, hy, hid⟩ | ⟨_, _, h3⟩
    · obtain ⟨hk1, hk2, hk3⟩ := hinv.keyFields x hxmem y hy hid
      have hysnap : y ∈ importSnapshot hutId T0 := by
        refine List.mem_filter.mpr ⟨hy, ?_⟩
        simp only [Bool.and_eq_true, beq_iff_eq]
        exact ⟨hk1 ▸ hxhut, hk3 ▸ hxtype⟩
      by_cases hcy : (E.map GoogleEvent.id).contains y.googleEventId = true
      · rw [hk2]
        simpa using hcy
      · exact absurd hid (hxcond y hysnap (Bool.eq_false_iff.mpr hcy))
    · exact h3
  · exact hinv.pairsNodup.sublist
      ((importDeletePhase_table_sublist _ _ _).map _)

/-- **C5**: the external → internal sync pass is idempotent — running
`syncFromGoogleCalendar` a second time with the same fetched event set
performs zero mirror-table writes (no inserts, no updates, no deletes: all
three counters are zero and the table is unchanged); only the completion
timestamp on the venue, which lives outside the mirror table, is touched.
Hypotheses: the fetched events carry distinct external ids (Google event ids
are unique per calendar), and the initial table satisfies the schema
invariants (distinct primary keys, the UNIQUE `(hut_id, google_event_id)`
constraint, keys below the next sequence value). -/
theorem syncFromGoogleCalendar_idempotent (hutId : String) (E : List GoogleEvent)
    (T0 : List SyncedEvent) (n0 : Nat)
    (hev : (E.map GoogleEvent.id).Nodup)
    (hids : (T0.map SyncedEvent.id).Nodup)
    (hpairs : (pairKeys T0).Nodup)
    (hfresh : ∀ r ∈ T0, r.id < n0) :
    (syncFromGoogleCalendar hutId E (syncFromGoogleCalendar hutId E T0 n0).table
      (syncFromGoogleCalendar hutId E T0 n0).nextId).imported = 0
    ∧ (syncFromGoogleCalendar hutId E (syncFromGoogleCalendar hutId E T0 n0).table
      (syncFromGoogleCalendar hutId E T0 n0).nextId).updated = 0
    ∧ (syncFromGoogleCalendar hutId E (syncFromGoogleCalendar hutId E T0 n0).table
      (syncFromGoogleCalendar hutId E T0 n0).nextId).deleted = 0
    ∧ (syncFromGoogleCalendar hutId E (syncFromGoogleCalendar hutId E T0 n0).table
      (syncFromGoogleCalendar hutId E T0 n0).nextId).table
        = (syncFromGoogleCalendar hutId E T0 n0).table := by
  obtain ⟨hdone, hkeys, hpairs1⟩ := importPass_post hutId E T0 n0 hev hids hpairs hfresh
  have hcond : ∀ e ∈ E,
      (∃ r, (importSnapshot hutId (syncFromGoogleCalendar hutId E T0 n0).table).find?
          (fun r => r.googleEventId == e.id) = some r ∧ matchesEventData r e = true)
      ∨ ((importSnapshot hutId (syncFromGoogleCalendar hutId E T0 n0).table).find?
          (fun r => r.googleEventId == e.id) = none ∧
        (syncFromGoogleCalendar hutId E T0 n0).table.any
          (fun x => x.hutId == hutId && x.googleEventId == e.id) = true) := by
    intro e he
    rcases hdone e he with ⟨r, hrmem, h1, h2, h3, h4⟩ | ⟨r, hrmem, h1, h3, h2⟩
    · have hrsnap : r ∈ importSnapshot hutId (syncFromGoogleCalendar hutId E T0 n0).table :=
        List.mem_filter.mpr ⟨hrmem, by simp [h1, h2]⟩
      left
      cases hfind : (importSnapshot hutId (syncFromGoogleCalendar hutId E T0 n0).table).find?
          (fun r => r.googleEventId == e.id) with
      | none =>
        exact absurd h3 (by simpa using List.find?_eq_none.mp hfind r hrsnap)
      | some r' =>
        have hr'snap := List.mem_of_find?_eq_some hfind
        have hr'key : r'.googleEventId = e.id := by simpa using List.find?_some hfind
        obtain ⟨hr'T1, hr'hut, _⟩ :=
          mem_importSnapshot hutId (syncFromGoogleCalendar hutId E T0 n0).table r' hr'snap
        have hr'r : r' = r := by
          apply List.inj_on_of_nodup_map hpairs1 hr'T1 hrmem
          show (r'.hutId, r'.googleEventId) = (r.hutId, r.googleEventId)
          rw [hr'hut, hr'key, h1, h3]
        exact ⟨r', rfl, by rw [hr'r]; exact h4⟩
    · right
      constructor
      · cases hfind : (importSnapshot hutId (syncFromGoogleCalendar hutId E T0 n0).table).find?
            (fun r => r.googleEventId == e.id) with
        | none => rfl
        | some r' =>
          exfalso
          have hr'snap := List.mem_of_find?_eq_some hfind
          have hr'key : r'.googleEventId = e.id := by simpa using List.find?_some hfind
          obtain ⟨hr'T1, hr'hut, hr'type⟩ :=
            mem_importSnapshot hutId (syncFromGoogleCalendar hutId E T0 n0).table r' hr'snap
          have hr'r : r' = r := by
            apply List.inj_on_of_nodup_map hpairs1 hr'T1 hrmem
            show (r'.hutId, r'.googleEventId) = (r.hutId, r.googleEventId)
            rw [hr'hut, hr'key, h1, h3]
          rw [hr'r] at hr'type
          exact h2 hr'type
      · exact List.any_eq_true.mpr ⟨r, hrmem, by simp [h1, h3]⟩
  have hfoldid := importFold_noop hutId
    (importSnapshot hutId (syncFromGoogleCalendar hutId E T0 n0).table)
    (syncFromGoogleCalendar hutId E T0 n0).table E hcond
    { table := (syncFromGoogleCalendar hutId E T0 n0).table
      nextId := (syncFromGoogleCalendar hutId E T0 n0).nextId
      imported := 0, updated := 0, deleted := 0 } rfl
  have hdelid := importDeletePhase_noop (E.map GoogleEvent.id)
    (importSnapshot hutId (syncFromGoogleCalendar hutId E T0 n0).table)
    (fun r hr => by
      obtain ⟨hrT1, hrhut, hrtype⟩ :=
        mem_importSnapshot hutId (syncFromGoogleCalendar hutId E T0 n0).table r hr
      simpa using hkeys r hrT1 hrhut hrtype)
    { table := (syncFromGoogleCalendar hutId E T0 n0).table
      nextId := (syncFromGoogleCalendar hutId E T0 n0).nextId
      imported := 0, updated := 0, deleted := 0 }
  have hrun2 : syncFromGoogleCalendar hutId E (syncFromGoogleCalendar hutId E T0 n0).table
      (syncFromGoogleCalendar hutId E T0 n0).nextId
      = { table := (syncFromGoogleCalendar hutId E T0 n0).table
          nextId := (syncFromGoogleCalendar hutId E T0 n0).nextId
          imported := 0, updated := 0, deleted := 0 } := by
    show importDeletePhase _ _ _ = _
    rw [hfoldid, hdelid]
  rw [hrun2]
  exact ⟨rfl, rfl, rfl, rfl⟩

/-- Witness for `syncFromGoogleCalendar_idempotent`: importing one concrete
event into an empty mirror table and running the pass again performs zero
writes the second time. -/
theorem syncFromGoogleCalendar_idempotent_witness :
    (syncFromGoogleCalendar "h1"
      [{ id := 11, summary := "Dentist", startTime := 100, endTime := 200 }]
      (syncFromGoogleCalendar "h1"
        [{ id := 11, summary := "Dentist", startTime := 100, endTime := 200 }] [] 0).table
      (syncFromGoogleCalendar "h1"
        [{ id := 11, summary := "Dentist", startTime := 100, endTime := 200 }] [] 0).nextId).imported = 0
    ∧ (syncFromGoogleCalendar "h1"
      [{ id := 11, summary := "Dentist", startTime := 100, endTime := 200 }]
      (syncFromGoogleCalendar "h1"
        [{ id := 11, summary := "Dentist", startTime := 100, endTime := 200 }] [] 0).table
      (syncFromGoogleCalendar "h1"
        [{ id := 11, summary := "Dentist", startTime := 100, endTime := 200 }] [] 0).nextId).updated = 0
    ∧ (syncFromGoogleCalendar "h1"
      [{ id := 11, summary := "Dentist", startTime := 100, endTime := 200 }]
      (syncFromGoogleCalendar "h1"
        [{ id := 11, summary := "Dentist", startTime := 100, endTime := 200 }] [] 0).table
      (syncFromGoogleCalendar "h1"
        [{ id := 11, summary := "Dentist", startTime := 100, endTime := 200 }] [] 0).nextId).deleted = 0
    ∧ (syncFromGoogleCalendar "h1"
      [{ id := 11, summary := "Dentist", startTime := 100, endTime := 200 }]
      (syncFromGoogleCalendar "h1"
        [{ id := 11, summary := "Dentist", startTime := 100, endTime := 200 }] [] 0).table
      (syncFromGoogleCalendar "h1"
        [{ id := 11, summary := "Dentist", startTime := 100, endTime := 200 }] [] 0).nextId).table
      = (syncFromGoogleCalendar "h1"
        [{ id := 11, summary := "Dentist", startTime := 100, endTime := 200 }] [] 0).table :=
  syncFromGoogleCalendar_idempotent "h1"
    [{ id := 11, summary := "Dentist", startTime := 100, endTime := 200 }] [] 0
    (by decide) (by decide) (by decide) (fun r hr => absurd hr (List.not_mem_nil r))

end ScoutBookings
